import Mathlib

/-!
Shallow embedding of `src/trace.c`, the trace facility of traceit.

C strings are lists of characters (`Str`), a `NULL` pointer is `none`.
Trace points are identified by their address (a natural number).  The
intrusive singly linked list that starts at `trace_point_head` is the list
of the addresses met when following the `next` fields; `update_point` links
a trace point in front of it only when its state is INIT, which is when the
trace point is not in the list yet (`registry_inv`).  The list of
`struct trace_conf` that starts at `trace_conf_head` is a list of rules in
head-to-tail order.  The `int` field `state` is an integer whose increment
wraps modulo `2^32`.  A function returns `none` when the C code hands a
`NULL` pointer to the C library.  Of the static message buffer of
`trace_at_` the size is kept (`message_size`); the text that a second
`vsnprintf` writes with a `va_list` already used is taken from the outside.

What the C library does is taken from the outside: `fnmatch`, the program
name and the process id (`Env`), the environment variables and the files
that can be opened at the time of a call (`World`).  What is written with
`message` and `system_trace` is appended to the field `out`, one entry per
call, with the arguments of the call instead of the rendered bytes.
-/

namespace Traceit

/-- C string: the characters before the terminating NUL. -/
abbrev Str := List Char

/-! ## Constants -/

/-- The initial state for the trace point. -/
def STATE_INIT : Int := -1
/-- The state after the user has requested a reload. -/
def STATE_REINIT : Int := -2
/-- State one is the first state, the state is incremented at each trace. -/
def STATE_ONE : Int := 1
/-- Trace is off. -/
def STATE_OFF : Int := 0

def LOG_EMERG : Int := 0
def LOG_ALERT : Int := 1
def LOG_CRIT : Int := 2
def LOG_ERR : Int := 3
def LOG_WARNING : Int := 4
def LOG_NOTICE : Int := 5
def LOG_INFO : Int := 6
def LOG_DEBUG : Int := 7

/-- Largest value of a 32-bit `int`. -/
def INT_MAX : Int := 2147483647

/-- Value of `errno` for a missing file. -/
def ENOENT : Int := 2

/-- Two's complement value of an integer in 32 bits. -/
def wrap32 (x : Int) : Int := (x + 2147483648) % 4294967296 - 2147483648

/-! ## Types -/

/-- An entry of the trace configuration (`struct trace_conf`, without the
`next` link).  `load_conf` is the only caller of `add_conf` and it always
passes a token for the function pattern, so the pattern is never `NULL`. -/
structure trace_conf where
  enable : Bool
  file_pattern : Str
  func_pattern : Str
  deriving DecidableEq, Repr

/-- What the embedding takes from the C library for the life of the process. -/
structure Env where
  /-- Result of `fnmatch(pattern, string, 0)`: zero for a match. -/
  fnmatch : Str → Str → Int
  program_invocation_short_name : Str
  getpid : Int
  /-- What a second `vsnprintf` writes (before it is cut to the size of the
  buffer) with a `va_list` that the first `vsnprintf` has used already, for
  a format and arguments of which the first one made the given text.  C
  leaves the value of such a `va_list` open, so nothing is known of it. -/
  vsnprintf_again : Str → Str

/-- What the embedding takes from the operating system at the time of a call. -/
structure World where
  getenv : Str → Option Str
  /-- Result of `fopen(path, "r")`: the value of `errno`, or the bytes of the file. -/
  fopen_r : Str → Except Int Str
  /-- Result of `fopen(path, "a")`: `none` for `NULL`, or the stream. -/
  fopen_a : Str → Option Nat

/-- Where `message` and `system_trace` write to. -/
inductive Dest where
  | syslog
  | file (fp : Nat)
  | stderr
  deriving DecidableEq, Repr

/-- Arguments of the `snprintf` call that fills `prefix_buf` in `trace_at_`;
`program` is present in the format without syslog only. -/
structure Header where
  program : Option Str
  file : Str
  line : Int
  func : Str
  severity : Str
  pid : Int
  counter : Int
  deriving DecidableEq, Repr

/-- Messages of the trace system itself. -/
inductive SysMsg where
  | conf (enable : Bool) (file_pattern func_pattern : Str)
  | cannot_open_output (trace_file : Str)
  | reading (conf_file : Str)
  | cannot_open_conf (conf_file : Str) (errno : Int)
  | bad_line (conf_file : Str) (conf_line_no : Nat)
  deriving DecidableEq, Repr

/-- One call of `message` or one message written by `system_trace`. -/
inductive Output where
  | trace (dest : Dest) (priority : Int) (hdr : Header) (subline : Option Nat)
      (payload : Option Str)
  | system (dest : Dest) (priority : Int) (pid : Int) (msg : SysMsg)
  deriving DecidableEq, Repr

/-- Counter printed by a trace record. -/
def Output.counter? : Output → Option Int
  | .trace _ _ hdr _ _ => some hdr.counter
  | .system _ _ _ _ => none

/-- The file-scope variables of `trace.c`, the `state` fields of the trace
points and what has been written and closed so far. -/
structure Global where
  /-- Field `state` of the trace point at each address. -/
  state : Nat → Int
  /-- Addresses of the trace points linked from `trace_point_head`. -/
  trace_point_head : List Nat
  /-- Rules linked from `trace_conf_head` up to `trace_conf_tail`. -/
  trace_conf_head : List trace_conf
  use_syslog : Bool
  trace_file : Option Str
  trace_fp : Option Nat
  /-- Static `inited` of `trace_init`. -/
  inited : Bool
  /-- Streams given to `fclose` by `set_conf`, oldest first. -/
  closed : List Nat
  out : List Output
  /-- Static `message_size` of `trace_at_`, the size of `message_buf`; it is
  0 as long as `message_buf` is `NULL`. -/
  message_size : Nat

/-- System log level for internal messages. -/
def system_level : Int := LOG_INFO

/-- State of the process before any call: no rule, syslog in use, every
trace point as its `static` initialiser `{ -1, NULL }` leaves it. -/
def Global.initial : Global where
  state := fun _ => STATE_INIT
  trace_point_head := []
  trace_conf_head := []
  use_syslog := true
  trace_file := none
  trace_fp := none
  inited := false
  closed := []
  out := []
  message_size := 0

/-! ## Local functions -/

/-- Destination that `message` and `system_trace` choose. -/
def sink (g : Global) : Dest :=
  if g.use_syslog then Dest.syslog
  else match g.trace_fp with
    | some fp => Dest.file fp
    | none => Dest.stderr

/-- Convert the syslog priority integer value to a string. -/
def priority_to_str (priority : Int) : Str :=
  if priority = LOG_EMERG then ['E', 'm', 'e', 'r', 'g']
  else if priority = LOG_ALERT then ['A', 'l', 'e', 'r', 't']
  else if priority = LOG_CRIT then ['C', 'r', 'i', 't', 'i', 'c', 'a', 'l']
  else if priority = LOG_ERR then ['E', 'r', 'r', 'o', 'r']
  else if priority = LOG_WARNING then ['W', 'a', 'r', 'n', 'i', 'n', 'g']
  else if priority = LOG_NOTICE then ['N', 'o', 't', 'i', 'c', 'e']
  else if priority = LOG_INFO then ['I', 'n', 'f', 'o']
  else if priority = LOG_DEBUG then ['D', 'e', 'b', 'u', 'g']
  else ['?']

/-- Internal message from the trace system itself. -/
def system_trace (env : Env) (g : Global) (priority : Int) (msg : SysMsg) : Global :=
  if priority > system_level then g
  else { g with out := g.out ++ [Output.system (sink g) priority env.getpid msg] }

/-- Result `strcasecmp(a, b) == 0`. -/
def strcaseeq (a b : Str) : Bool :=
  a.map Char.toLower == b.map Char.toLower

/-- Yea or nay. -/
def str_to_bool (value : Str) : Bool :=
  !(strcaseeq value ['f', 'a', 'l', 's', 'e']
    || strcaseeq value ['n', 'o']
    || strcaseeq value ['o', 'f', 'f']
    || strcaseeq value ['n', 'i', 'l']
    || strcaseeq value ['n', 'a', 'y']
    || strcaseeq value ['-']
    || value.head? == some '0')

/-- Append an entry to the configuration list. -/
def add_conf (env : Env) (g : Global) (enable : Bool) (file_pattern func_pattern : Str) :
    Global :=
  let g1 := system_trace env g LOG_DEBUG (SysMsg.conf enable file_pattern func_pattern)
  { g1 with trace_conf_head :=
      g1.trace_conf_head ++ [{ enable := enable, file_pattern := file_pattern,
                               func_pattern := func_pattern }] }

/-- Set a configuration value. -/
def set_conf (env : Env) (w : World) (g : Global) (name value : Str) : Global :=
  if name = ['f', 'i', 'l', 'e'] then
    let g1 : Global :=
      match g.trace_file, g.trace_fp with
      | some _, some fp => { g with closed := g.closed ++ [fp] }
      | _, _ => g
    let g2 : Global := { g1 with trace_file := some value, trace_fp := w.fopen_a value }
    match w.fopen_a value with
    | none => system_trace env g2 LOG_ERR (SysMsg.cannot_open_output value)
    | some _ => g2
  else if name = ['s', 'y', 's', 'l', 'o', 'g'] then
    { g with use_syslog := str_to_bool value }
  else g

/-- Condition of the loop body of `is_trace_on`: both patterns match. -/
def rule_matches (env : Env) (conf : trace_conf) (file func : Str) : Bool :=
  env.fnmatch conf.file_pattern file == 0 && env.fnmatch conf.func_pattern func == 0

/-- Check the configuration list to see if trace is on for the given trace
point. -/
def is_trace_on (env : Env) (g : Global) (file func : Str) (_line : Int) : Bool :=
  g.trace_conf_head.foldl
    (fun enable conf => if rule_matches env conf file func then conf.enable else enable)
    false

/-- GNU `basename`: what follows the last slash. -/
def basename (file : Str) : Str :=
  (file.reverse.takeWhile (fun c => c != '/')).reverse

/-- Characters of a buffer up to the first NUL. -/
def cstr (text : Str) : Str :=
  text.takeWhile (fun c => c != Char.ofNat 0)

/-- Successive results of `getline` on a stream with the given bytes: each
line keeps its newline, the last line may be without one. -/
def getlines : Str → List Str
  | [] => []
  | c :: cs =>
    if c = '\n' then [c] :: getlines cs
    else match getlines cs with
      | [] => [[c]]
      | l :: ls => (c :: l) :: ls

/-- Separators of the configuration tokens, the string `" \t,:"`. -/
def is_delim (c : Char) : Bool :=
  c == ' ' || c == '\t' || c == ',' || c == ':'

/-- Call `strsep(&s, " \t,:")` with `s` not `NULL`: the token, and the new
value of `s`. -/
def strsep : Str → Str × Option Str
  | [] => ([], none)
  | c :: cs => if is_delim c then ([], some cs) else (c :: (strsep cs).1, (strsep cs).2)

/-- The `do ... while` of the token loop on a non-`NULL` `s`: `strsep` is
called again as long as it returns an empty token; on the empty string it
returns the empty token, sets `s` to `NULL`, and its next call returns `NULL`. -/
def skip_empty : Str → Option Str × Option Str
  | [] => (none, none)
  | c :: cs => if is_delim c then skip_empty cs else (some (strsep (c :: cs)).1, (strsep (c :: cs)).2)

/-- The `do ... while` of the token loop: the token (or `NULL`) and the new `s`. -/
def next_token : Option Str → Option Str × Option Str
  | none => (none, none)
  | some s => skip_empty s

/-- The `for` loop that fills `token_vector`, with `n` slots left: the
tokens stored before the first `NULL`. -/
def split_tokens : Nat → Option Str → List Str
  | 0, _ => []
  | n + 1, s =>
    match next_token s with
    | (none, _) => []
    | (some token, s1) => token :: split_tokens n s1

/-- The tokens of a line as `getline` returns it: the newline is removed,
the comment is stripped, at most nine tokens are stored. -/
def tokenize (text : Str) : List Str :=
  let text1 := if text.getLast? = some '\n' then text.dropLast else text
  let text2 := (cstr text1).takeWhile (fun c => c != '#')
  split_tokens 9 (some text2)

/-- Value of `offset` after the test of the optional sign. -/
def sign_offset (token0 : Str) : Nat :=
  if token0.head? = some '-' then 1
  else if token0.head? = some '+' then 1
  else 0

/-- Value of `on` after the test of the optional sign. -/
def sign_on (token0 : Str) : Bool :=
  if token0.head? = some '-' then false else true

/-- Body of the `for` loop of `load_conf` for one line.  The result is
`none` when `token_vector[offset]` is `NULL` and is handed to `fnmatch`. -/
def conf_line (env : Env) (w : World) (conf_file : Str) (conf_line_no : Nat)
    (g : Global) (text : Str) : Option Global :=
  if text.length = 0 then some g
  else
    match tokenize text with
    | [] => some g
    | token0 :: tokens =>
      let enable := sign_on token0
      let offset := sign_offset token0
      match (token0 :: tokens).drop offset with
      | [] => none
      | program :: args =>
        if env.fnmatch program env.program_invocation_short_name ≠ 0 then some g
        else
          match offset, token0 :: tokens with
          | 0, [_, name, eq, value] =>
            if eq.head? = some '=' then some (set_conf env w g name value)
            else some (system_trace env g LOG_WARNING (SysMsg.bad_line conf_file conf_line_no))
          | _, _ =>
            match args with
            | [func_pattern] => some (add_conf env g enable ['*'] func_pattern)
            | [file_pattern, func_pattern] => some (add_conf env g enable file_pattern func_pattern)
            | _ => some (system_trace env g LOG_WARNING (SysMsg.bad_line conf_file conf_line_no))

/-- The `for` loop of `load_conf` over the lines that are left. -/
def read_lines (env : Env) (w : World) (conf_file : Str) :
    Nat → Global → List Str → Option Global
  | _, g, [] => some g
  | conf_line_no, g, text :: rest =>
    match conf_line env w conf_file conf_line_no g text with
    | none => none
    | some g1 => read_lines env w conf_file (conf_line_no + 1) g1 rest

/-- Name of the configuration file. -/
def conf_file_name (w : World) : Str :=
  match w.getenv ['T', 'R', 'A', 'C', 'E', 'C', 'O', 'N', 'F'] with
  | some conf_file => conf_file
  | none => ['/', 'e', 't', 'c', '/', 't', 'r', 'a', 'c', 'e', '.', 'c', 'o', 'n', 'f']

/-- Load or reload the trace configuration file. -/
def load_conf (env : Env) (w : World) (g : Global) : Option Global :=
  let conf_file := conf_file_name w
  let g1 := system_trace env g LOG_INFO (SysMsg.reading conf_file)
  match w.fopen_r conf_file with
  | .error errno =>
    if errno ≠ ENOENT then
      some (system_trace env g1 LOG_WARNING (SysMsg.cannot_open_conf conf_file errno))
    else some g1
  | .ok content =>
    read_lines env w conf_file 1 { g1 with trace_conf_head := [] } (getlines content)

/-- Update the trace point state using the values in the configuration. -/
def update_point (env : Env) (g : Global) (point : Nat) (file func : Str)
    (line priority : Int) : Global :=
  if g.state point < 0 then
    let g1 : Global :=
      if g.state point = STATE_INIT then
        { g with trace_point_head := point :: g.trace_point_head }
      else g
    if priority ≤ LOG_NOTICE ∨ is_trace_on env g1 file func line = true then
      { g1 with state := Function.update g1.state point STATE_ONE }
    else
      { g1 with state := Function.update g1.state point STATE_OFF }
  else g

/-! ## Global functions -/

/-- Initialize trace library. -/
def trace_init (env : Env) (w : World) (g : Global) : Option Global :=
  if g.inited = false then
    let g1 : Global := { g with inited := true }
    let g2 : Global :=
      match w.getenv ['T', 'R', 'A', 'C', 'E', 'F', 'I', 'L', 'E'] with
      | some [] => { g1 with use_syslog := false }
      | _ => g1
    load_conf env w g2
  else some g

/-- Reload trace configuration. -/
def trace_load (env : Env) (w : World) (g : Global) : Option Global :=
  load_conf env w
    { g with state := fun point =>
        if point ∈ g.trace_point_head then STATE_REINIT else g.state point }

/-- Implementation of the `TRACE_IS_ON`, `TRACE_IS_OFF` and `TRACE_FOR`
queries: only the state of the trace point is updated. -/
def trace_state_at_ (env : Env) (g : Global) (point : Nat) (file func : Str)
    (line : Int) : Global :=
  update_point env g point (basename file) func line LOG_DEBUG

/-- The loop of `trace_at_` that prints a message for each line, from line
number `i`, with `acc` the characters (last first) between `s` and the
character under examination.  A carriage return right before the newline is
cut off; for a newline at the very start of the buffer the byte examined
lies before the buffer and what is printed does not depend on it. -/
def message_lines (i : Nat) (acc : Str) : Str → List (Nat × Str)
  | [] => [(i, acc.reverse)]
  | c :: cs =>
    if c = '\n' then
      let s : Str :=
        match acc with
        | '\r' :: acc1 => acc1.reverse
        | _ => acc.reverse
      if cs = [] then [(i, s)] else (i, s) :: message_lines (i + 1) [] cs
    else message_lines i (c :: acc) cs

/-- The calls of `message` made by `trace_at_` for the rendered message
(`none` for a `NULL` format): sub-line number and text of each. -/
def message_calls (rendered : Option Str) : List (Option Nat × Option Str) :=
  match rendered with
  | some message_buf =>
    if message_buf.length ≠ 0 ∧ '\n' ∈ message_buf then
      (message_lines 1 [] message_buf).map (fun r => (some r.1, some r.2))
    else [(none, some message_buf)]
  | none => [(none, none)]

/-- The `snprintf` call of `trace_at_` that formats the start of the
message; the program name is in the format without syslog only. -/
def format_header (env : Env) (g : Global) (file : Str) (line : Int) (func : Str)
    (priority : Int) (state : Int) : Header :=
  { program := if g.use_syslog then none else some env.program_invocation_short_name,
    file := file, line := line, func := func,
    severity := priority_to_str priority, pid := env.getpid, counter := state }

/-- What the calls of `message` made by `trace_at_` write. -/
def write_message (g : Global) (priority : Int) (hdr : Header) (rendered : Option Str) :
    List Output :=
  List.map (fun r => Output.trace (sink g) priority hdr r.1 r.2) (message_calls rendered)

/-- Size of `message_buf` after the initialisation of the static message
buffer: 100 for the buffer that is still `NULL`. -/
def buffer_size (g : Global) : Nat :=
  if g.message_size = 0 then 100 else g.message_size

/-- The text in `message_buf` after `trace_at_` has formatted the message
text, `rendered` being what `vsnprintf` makes of the format and its
arguments (`none` for a `NULL` format).  A text shorter than the buffer is
in the buffer as it is.  For any other text the buffer gets twice the length
of the text and `vsnprintf` is called again with the `va_list` that the
first call has used: the buffer holds what that call writes, up to its size. -/
def message_buf (env : Env) (g : Global) (rendered : Option Str) : Option Str :=
  match rendered with
  | some text =>
    if text.length < buffer_size g then some text
    else some ((env.vsnprintf_again text).take (2 * text.length - 1))
  | none => none

/-- Value of `message_size` after `trace_at_` has formatted the message text. -/
def message_size_after (g : Global) (rendered : Option Str) : Nat :=
  match rendered with
  | some text => if text.length < buffer_size g then buffer_size g else 2 * text.length
  | none => g.message_size

/-- The trace implementation behind the `TRACE` query; `rendered` is what
`vsnprintf` makes of the format and its arguments.  The test `n && q` of
the message loop is the test of `message_calls`: a buffer with a newline is
not empty, and `n` is at least the length of the text in the buffer. -/
def trace_at_ (env : Env) (g : Global) (point : Nat) (file func : Str)
    (line priority : Int) (rendered : Option Str) : Global :=
  let file1 := basename file
  let g1 := update_point env g point file1 func line priority
  if g1.state point ≠ 0 then
    let hdr := format_header env g1 file1 line func priority (g1.state point)
    let g2 : Global :=
      { g1 with
        out := g1.out ++ write_message g1 priority hdr (message_buf env g1 rendered),
        message_size := message_size_after g1 rendered }
    let state1 := wrap32 (g2.state point + 1)
    { g2 with state :=
        Function.update g2.state point (if state1 ≤ 0 then STATE_ONE else state1) }
  else g1

/-! ## Definitions used to state the properties -/

/-- Step of the loop of `is_trace_on`. -/
def match_step (env : Env) (file func : Str) (enable : Bool) (conf : trace_conf) : Bool :=
  if rule_matches env conf file func then conf.enable else enable

/-- A line whose tokens are a sign and nothing else: `token_vector[offset]`
is `NULL` there. -/
def lone_sign (text : Str) : Bool :=
  match tokenize text with
  | [token0] => sign_offset token0 == 1
  | _ => false

/-- The rule of a rule line, after the grammar of the configuration file:
`[+|-] <program> <function>` gives the file pattern `*`,
`[+|-] <program> <file> <function>` gives both patterns, the flag is off
for the sign `-` only; a line for another program, a setting
`<program> <name> = <value>` and any other line give no rule. -/
def line_rule (env : Env) (text : Str) : Option trace_conf :=
  match tokenize text with
  | [] => none
  | token0 :: tokens =>
    match (token0 :: tokens).drop (sign_offset token0) with
    | [] => none
    | program :: args =>
      if env.fnmatch program env.program_invocation_short_name ≠ 0 then none
      else if sign_offset token0 = 0 ∧ (token0 :: tokens).length = 4
          ∧ ((token0 :: tokens).getD 2 []).head? = some '=' then none
      else
        match args with
        | [func_pattern] =>
          some { enable := sign_on token0, file_pattern := ['*'],
                 func_pattern := func_pattern }
        | [file_pattern, func_pattern] =>
          some { enable := sign_on token0, file_pattern := file_pattern,
                 func_pattern := func_pattern }
        | _ => none

/-- The rules of the rule lines of a file, in the order of the lines. -/
def file_rules (env : Env) (content : Str) : List trace_conf :=
  (getlines content).filterMap (line_rule env)

/-- Whether `load_conf` runs into a line that is a lone sign. -/
def load_faults (w : World) : Bool :=
  match w.fopen_r (conf_file_name w) with
  | .ok content => (getlines content).any lone_sign
  | .error _ => false

/-- A process that has made no call on a trace point yet, with the given rules. -/
def fresh (rules : List trace_conf) : Global :=
  { Global.initial with trace_conf_head := rules }

/-- A call of one of the three entry points on the trace points. -/
inductive Call where
  | state_at (point : Nat) (file func : Str) (line : Int)
  | trace (point : Nat) (file func : Str) (line priority : Int) (rendered : Option Str)
  | load (w : World)

/-- Effect of a call. -/
def Call.apply (env : Env) (g : Global) : Call → Option Global
  | .state_at point file func line => some (trace_state_at_ env g point file func line)
  | .trace point file func line priority rendered =>
    some (trace_at_ env g point file func line priority rendered)
  | .load w => trace_load env w g

/-- Effect of a sequence of calls; `none` when one of them does not return. -/
def run (env : Env) : List Call → Global → Option Global
  | [], g => some g
  | c :: cs, g =>
    match c.apply env g with
    | none => none
    | some g1 => run env cs g1

/-- Consecutive calls of `trace_at_` on one trace point, one per payload. -/
def trace_repeat (env : Env) (point : Nat) (file func : Str) (line priority : Int)
    (payloads : List (Option Str)) (g : Global) : Global :=
  payloads.foldl (fun g1 rendered => trace_at_ env g1 point file func line priority rendered) g

/-- The registry holds no trace point twice and holds exactly the trace
points whose state is not INIT. -/
def registry_inv (g : Global) : Prop :=
  g.trace_point_head.Nodup ∧ ∀ point, point ∈ g.trace_point_head ↔ g.state point ≠ STATE_INIT

/-- A matcher for concrete runs: the pattern `*` matches every string, any
other pattern matches itself only. -/
def sample_fnmatch (pattern string : Str) : Int :=
  if pattern = ['*'] ∨ pattern = string then 0 else 1

/-- The program `myapp` with process id 42. -/
def sample_env : Env :=
  { fnmatch := sample_fnmatch,
    program_invocation_short_name := ['m', 'y', 'a', 'p', 'p'],
    getpid := 42,
    vsnprintf_again := fun _ => ['?'] }

/-- A world where `TRACECONF` is unset, every file opened for reading has
the given bytes and no file opens for appending. -/
def sample_world (content : Str) : World :=
  { getenv := fun _ => none,
    fopen_r := fun _ => Except.ok content,
    fopen_a := fun _ => none }

/-- The file with the two lines `+ myapp foo.c:hello` and `- myapp foo.c:*`. -/
def sample_conf : Str :=
  ['+', ' ', 'm', 'y', 'a', 'p', 'p', ' ', 'f', 'o', 'o', '.', 'c', ':',
   'h', 'e', 'l', 'l', 'o', '\n',
   '-', ' ', 'm', 'y', 'a', 'p', 'p', ' ', 'f', 'o', 'o', '.', 'c', ':', '*', '\n']

/-- The settings of the configuration store: the syslog flag, the name of
the output file and its stream. -/
structure Settings where
  use_syslog : Bool
  trace_file : Option Str
  trace_fp : Option Nat
  deriving DecidableEq, Repr

/-- The settings in force. -/
def Global.settings (g : Global) : Settings :=
  { use_syslog := g.use_syslog, trace_file := g.trace_file, trace_fp := g.trace_fp }

/-- The program pattern of a line: the token after the optional sign. -/
def program_token (text : Str) : Option Str :=
  match tokenize text with
  | [] => none
  | token0 :: tokens => ((token0 :: tokens).drop (sign_offset token0)).head?

/-- The name and the value of a setting line, after the grammar of the
configuration file: `<program> <name> = <value>` without a sign, for a
program pattern that matches the running program. -/
def line_setting (env : Env) (text : Str) : Option (Str × Str) :=
  match tokenize text with
  | [program, name, eq, value] =>
    if sign_offset program = 0 ∧ env.fnmatch program env.program_invocation_short_name = 0
        ∧ eq.head? = some '=' then some (name, value)
    else none
  | _ => none

/-- The settings of the setting lines of a file, in the order of the lines. -/
def file_settings (env : Env) (content : Str) : List (Str × Str) :=
  (getlines content).filterMap (line_setting env)

/-- What a setting makes of the settings in force: the key `file` names the
output file and takes the stream that opening it for appending gives, the
key `syslog` sets the flag, any other key changes nothing. -/
def apply_setting (fopen_a : Str → Option Nat) (s : Settings) (setting : Str × Str) :
    Settings :=
  if setting.1 = ['f', 'i', 'l', 'e'] then
    { use_syslog := s.use_syslog, trace_file := some setting.2, trace_fp := fopen_a setting.2 }
  else if setting.1 = ['s', 'y', 's', 'l', 'o', 'g'] then
    { use_syslog := str_to_bool setting.2, trace_file := s.trace_file, trace_fp := s.trace_fp }
  else s

/-- The streams closed so far once `set_conf` has handled the old output
file: the stream in use is closed when the file has a name and a stream. -/
def closed_after (g : Global) : List Nat :=
  match g.trace_file, g.trace_fp with
  | some _, some fp => g.closed ++ [fp]
  | _, _ => g.closed

/-- Destination that an entry of `out` was written to. -/
def Output.dest : Output → Dest
  | .trace dest _ _ _ _ => dest
  | .system dest _ _ _ => dest

/-- A line of text without a carriage return at its end. -/
def strip_cr (s : Str) : Str :=
  if s.getLast? = some '\r' then s.dropLast else s

/-- The program `-sh`, a login shell, with process id 42. -/
def login_env : Env :=
  { fnmatch := sample_fnmatch,
    program_invocation_short_name := ['-', 's', 'h'],
    getpid := 42,
    vsnprintf_again := fun _ => ['?'] }

/-- A world where `TRACECONF` is unset, every file opened for reading has
the given bytes and every file opened for appending gives the stream 3. -/
def writable_world (content : Str) : World :=
  { getenv := fun _ => none,
    fopen_r := fun _ => Except.ok content,
    fopen_a := fun _ => some 3 }

/-- A world where no file opens. -/
def closed_world : World :=
  { getenv := fun _ => none,
    fopen_r := fun _ => Except.error ENOENT,
    fopen_a := fun _ => none }

/-- The words that `str_to_bool` takes for a no. -/
def false_words : List Str :=
  [['f', 'a', 'l', 's', 'e'], ['n', 'o'], ['o', 'f', 'f'], ['n', 'i', 'l'], ['n', 'a', 'y'],
   ['-']]

/-- Two characters that are equal when the case of a letter is ignored: the
same character, or one the upper-case or lower-case form of the other. -/
def same_letter (c l : Char) : Bool :=
  c == l || c == l.toUpper || c == l.toLower

/-- Two strings that are equal when the case of letters is ignored: of the
same length, with characters equal one by one up to the case of a letter. -/
def equals_ignoring_case : Str → Str → Bool
  | [], [] => true
  | c :: cs, l :: ls => same_letter c l && equals_ignoring_case cs ls
  | _, _ => false

/-! ## The matcher -/

theorem is_trace_on_eq_foldl (env : Env) (g : Global) (file func : Str) (line : Int) :
    is_trace_on env g file func line
      = g.trace_conf_head.foldl (match_step env file func) false := rfl

theorem foldl_match_step_of_no_match (env : Env) (file func : Str) (post : List trace_conf)
    (hpost : ∀ c ∈ post, rule_matches env c file func = false) (enable : Bool) :
    post.foldl (match_step env file func) enable = enable := by
  induction post generalizing enable with
  | nil => rfl
  | cons c cs ih =>
    have hc : rule_matches env c file func = false := hpost c (List.mem_cons_self c cs)
    have hcs : ∀ d ∈ cs, rule_matches env d file func = false :=
      fun d hd => hpost d (List.mem_cons_of_mem c hd)
    simp only [List.foldl_cons]
    rw [ih hcs]
    simp [match_step, hc]

theorem foldl_match_step_last (env : Env) (file func : Str) (pre post : List trace_conf)
    (r : trace_conf) (hr : rule_matches env r file func = true)
    (hpost : ∀ c ∈ post, rule_matches env c file func = false) (enable : Bool) :
    (pre ++ r :: post).foldl (match_step env file func) enable = r.enable := by
  rw [List.foldl_append, List.foldl_cons, foldl_match_step_of_no_match env file func post hpost]
  simp [match_step, hr]

theorem exists_last_match (env : Env) (file func : Str) (l : List trace_conf)
    (h : ∃ c ∈ l, rule_matches env c file func = true) :
    ∃ pre r post, l = pre ++ r :: post ∧ rule_matches env r file func = true
      ∧ ∀ c ∈ post, rule_matches env c file func = false := by
  induction l with
  | nil => obtain ⟨c, hc, _⟩ := h; cases hc
  | cons a l ih =>
    by_cases hl : ∃ c ∈ l, rule_matches env c file func = true
    · obtain ⟨pre, r, post, hsplit, hr, hpost⟩ := ih hl
      exact ⟨a :: pre, r, post, by rw [hsplit]; rfl, hr, hpost⟩
    · obtain ⟨c, hc, hm⟩ := h
      have ha : rule_matches env a file func = true := by
        rcases List.mem_cons.mp hc with rfl | hc1
        · exact hm
        · exact absurd ⟨c, hc1, hm⟩ hl
      refine ⟨[], a, l, rfl, ha, ?_⟩
      intro d hd
      by_contra hne
      exact hl ⟨d, hd, by simpa using hne⟩

theorem is_trace_on_of_no_match (env : Env) (g : Global) (file func : Str) (line : Int)
    (h : ∀ c ∈ g.trace_conf_head, rule_matches env c file func = false) :
    is_trace_on env g file func line = false := by
  rw [is_trace_on_eq_foldl]
  exact foldl_match_step_of_no_match env file func _ h false

/-- Claim C1 (last match wins): when at least one rule of the list matches
the file and the function, the list splits at a matching rule that no
matching rule follows, and at every such split `is_trace_on` returns the
enable flag of that last matching rule, whatever the rules before it are. -/
theorem is_trace_on_last_match_wins (env : Env) (g : Global) (file func : Str) (line : Int)
    (h : ∃ c ∈ g.trace_conf_head, rule_matches env c file func = true) :
    (∃ pre r post, g.trace_conf_head = pre ++ r :: post
      ∧ rule_matches env r file func = true
      ∧ ∀ c ∈ post, rule_matches env c file func = false)
    ∧ ∀ pre r post, g.trace_conf_head = pre ++ r :: post →
        rule_matches env r file func = true →
        (∀ c ∈ post, rule_matches env c file func = false) →
        is_trace_on env g file func line = r.enable := by
  refine ⟨exists_last_match env file func _ h, ?_⟩
  intro pre r post hsplit hr hpost
  rw [is_trace_on_eq_foldl, hsplit]
  exact foldl_match_step_last env file func pre post r hr hpost false

/-- Witness of C1: the rules `+ * hello`, `- foo.c *`, `+ bar.c *` at the
trace point `foo.c:hello`; the second rule is the last one that matches. -/
theorem is_trace_on_last_match_wins_witness :
    (∃ c ∈ (fresh [⟨true, ['*'], ['h', 'e', 'l', 'l', 'o']⟩,
                   ⟨false, ['f', 'o', 'o', '.', 'c'], ['*']⟩,
                   ⟨true, ['b', 'a', 'r', '.', 'c'], ['*']⟩]).trace_conf_head,
        rule_matches sample_env c ['f', 'o', 'o', '.', 'c'] ['h', 'e', 'l', 'l', 'o'] = true)
    ∧ is_trace_on sample_env
        (fresh [⟨true, ['*'], ['h', 'e', 'l', 'l', 'o']⟩,
                ⟨false, ['f', 'o', 'o', '.', 'c'], ['*']⟩,
                ⟨true, ['b', 'a', 'r', '.', 'c'], ['*']⟩])
        ['f', 'o', 'o', '.', 'c'] ['h', 'e', 'l', 'l', 'o'] 7 = false :=
  ⟨⟨⟨true, ['*'], ['h', 'e', 'l', 'l', 'o']⟩, by decide, by decide⟩,
   (is_trace_on_last_match_wins sample_env _ ['f', 'o', 'o', '.', 'c']
      ['h', 'e', 'l', 'l', 'o'] 7
      ⟨⟨true, ['*'], ['h', 'e', 'l', 'l', 'o']⟩, by decide, by decide⟩).2
      [⟨true, ['*'], ['h', 'e', 'l', 'l', 'o']⟩]
      ⟨false, ['f', 'o', 'o', '.', 'c'], ['*']⟩
      [⟨true, ['b', 'a', 'r', '.', 'c'], ['*']⟩] rfl (by decide) (by decide)⟩

/-! ## The state of a trace point -/

theorem is_trace_on_congr (env : Env) (g g1 : Global) (file func : Str) (line line1 : Int)
    (h : g1.trace_conf_head = g.trace_conf_head) :
    is_trace_on env g1 file func line1 = is_trace_on env g file func line := by
  simp only [is_trace_on, h]

/-- The two assignments of `update_point` in one expression. -/
theorem update_point_eq (env : Env) (g : Global) (point : Nat) (file func : Str)
    (line priority : Int) :
    update_point env g point file func line priority
      = if g.state point < 0 then
          { g with
            trace_point_head :=
              if g.state point = STATE_INIT then point :: g.trace_point_head
              else g.trace_point_head,
            state := Function.update g.state point
              (if priority ≤ LOG_NOTICE ∨ is_trace_on env g file func line = true
               then STATE_ONE else STATE_OFF) }
        else g := by
  unfold update_point
  by_cases h : g.state point < 0
  · by_cases hi : g.state point = STATE_INIT
    · by_cases hd : priority ≤ LOG_NOTICE ∨ is_trace_on env g file func line = true
      · have hd1 := hd
        simp only [is_trace_on] at hd1
        simp only [is_trace_on, if_pos h, if_pos hi, if_pos hd1]
      · have hd1 := hd
        simp only [is_trace_on] at hd1
        simp only [is_trace_on, if_pos h, if_pos hi, if_neg hd1]
    · by_cases hd : priority ≤ LOG_NOTICE ∨ is_trace_on env g file func line = true
      · have hd1 := hd
        simp only [is_trace_on] at hd1
        simp only [is_trace_on, if_pos h, if_neg hi, if_pos hd1]
      · have hd1 := hd
        simp only [is_trace_on] at hd1
        simp only [is_trace_on, if_pos h, if_neg hi, if_neg hd1]
  · simp only [if_neg h]

theorem update_point_of_nonneg (env : Env) (g : Global) (point : Nat) (file func : Str)
    (line priority : Int) (h : 0 ≤ g.state point) :
    update_point env g point file func line priority = g := by
  rw [update_point_eq, if_neg (not_lt.mpr h)]

theorem update_point_state_of_neg (env : Env) (g : Global) (point : Nat) (file func : Str)
    (line priority : Int) (h : g.state point < 0) :
    (update_point env g point file func line priority).state point
      = if priority ≤ LOG_NOTICE ∨ is_trace_on env g file func line = true
        then STATE_ONE else STATE_OFF := by
  rw [update_point_eq, if_pos h]
  simp only [Function.update_same]

theorem update_point_state_other (env : Env) (g : Global) (point other : Nat)
    (file func : Str) (line priority : Int) (h : other ≠ point) :
    (update_point env g point file func line priority).state other = g.state other := by
  rw [update_point_eq]
  split
  · simp only [Function.update_noteq h]
  · rfl

theorem update_point_head (env : Env) (g : Global) (point : Nat) (file func : Str)
    (line priority : Int) :
    (update_point env g point file func line priority).trace_point_head
      = if g.state point = STATE_INIT then point :: g.trace_point_head
        else g.trace_point_head := by
  rw [update_point_eq]
  by_cases h : g.state point < 0
  · rw [if_pos h]
  · rw [if_neg h]
    have : g.state point ≠ STATE_INIT := by
      intro hi; apply h; rw [hi]; decide
    rw [if_neg this]

theorem update_point_frame (env : Env) (g : Global) (point : Nat) (file func : Str)
    (line priority : Int) :
    (update_point env g point file func line priority).trace_conf_head = g.trace_conf_head
    ∧ (update_point env g point file func line priority).use_syslog = g.use_syslog
    ∧ (update_point env g point file func line priority).trace_file = g.trace_file
    ∧ (update_point env g point file func line priority).trace_fp = g.trace_fp
    ∧ (update_point env g point file func line priority).inited = g.inited
    ∧ (update_point env g point file func line priority).closed = g.closed
    ∧ (update_point env g point file func line priority).out = g.out := by
  rw [update_point_eq]
  split <;> exact ⟨rfl, rfl, rfl, rfl, rfl, rfl, rfl⟩

theorem update_point_message_size (env : Env) (g : Global) (point : Nat) (file func : Str)
    (line priority : Int) :
    (update_point env g point file func line priority).message_size = g.message_size := by
  rw [update_point_eq]
  split <;> rfl

theorem message_buf_congr (env : Env) (g g1 : Global) (rendered : Option Str)
    (h : g1.message_size = g.message_size) :
    message_buf env g1 rendered = message_buf env g rendered := by
  simp only [message_buf, buffer_size, h]

theorem message_size_after_congr (g g1 : Global) (rendered : Option Str)
    (h : g1.message_size = g.message_size) :
    message_size_after g1 rendered = message_size_after g rendered := by
  simp only [message_size_after, buffer_size, h]

theorem sink_congr (g g1 : Global) (h1 : g1.use_syslog = g.use_syslog)
    (h2 : g1.trace_fp = g.trace_fp) : sink g1 = sink g := by
  simp only [sink, h1, h2]

theorem format_header_congr (env : Env) (g g1 : Global) (file : Str) (line : Int)
    (func : Str) (priority state : Int) (h1 : g1.use_syslog = g.use_syslog) :
    format_header env g1 file line func priority state
      = format_header env g file line func priority state := by
  simp only [format_header, h1]

theorem write_message_congr (g g1 : Global) (priority : Int) (hdr : Header)
    (rendered : Option Str) (h1 : g1.use_syslog = g.use_syslog)
    (h2 : g1.trace_fp = g.trace_fp) :
    write_message g1 priority hdr rendered = write_message g priority hdr rendered := by
  simp only [write_message, sink_congr g g1 h1 h2]

theorem message_lines_ne_nil (i : Nat) (acc s : Str) : message_lines i acc s ≠ [] := by
  induction s generalizing i acc with
  | nil => simp [message_lines]
  | cons c cs ih =>
    unfold message_lines
    by_cases hc : c = '\n'
    · rw [if_pos hc]
      by_cases hcs : cs = []
      · simp [hcs]
      · simp [hcs]
    · rw [if_neg hc]
      exact ih i (c :: acc)

theorem message_calls_ne_nil (rendered : Option Str) : message_calls rendered ≠ [] := by
  unfold message_calls
  cases rendered with
  | none => simp
  | some m =>
    simp only
    split
    · simpa using message_lines_ne_nil 1 [] m
    · simp

theorem write_message_ne_nil (g : Global) (priority : Int) (hdr : Header)
    (rendered : Option Str) : write_message g priority hdr rendered ≠ [] := by
  unfold write_message
  simpa using message_calls_ne_nil rendered

theorem write_message_counter (g : Global) (priority : Int) (hdr : Header)
    (rendered : Option Str) :
    ∀ o ∈ write_message g priority hdr rendered, o.counter? = some hdr.counter := by
  intro o ho
  unfold write_message at ho
  obtain ⟨r, _, rfl⟩ := List.mem_map.mp ho
  rfl

/-- What `trace_at_` does when the state after `update_point` is not zero. -/
theorem trace_at_of_ne_zero (env : Env) (g : Global) (point : Nat) (file func : Str)
    (line priority : Int) (rendered : Option Str)
    (h : (update_point env g point (basename file) func line priority).state point ≠ 0) :
    trace_at_ env g point file func line priority rendered
      = { update_point env g point (basename file) func line priority with
          out := g.out ++ write_message g priority
            (format_header env g (basename file) line func priority
              ((update_point env g point (basename file) func line priority).state point))
            (message_buf env g rendered),
          message_size := message_size_after g rendered,
          state := Function.update
            (update_point env g point (basename file) func line priority).state point
            (if wrap32 ((update_point env g point (basename file) func line
                  priority).state point + 1) ≤ 0
             then STATE_ONE
             else wrap32 ((update_point env g point (basename file) func line
                  priority).state point + 1)) } := by
  obtain ⟨_, h2, _, h4, _, _, h7⟩ :=
    update_point_frame env g point (basename file) func line priority
  unfold trace_at_
  simp only [if_pos h]
  have h8 := update_point_message_size env g point (basename file) func line priority
  rw [write_message_congr g _ priority _ _ h2 h4,
    format_header_congr env g _ (basename file) line func priority _ h2, h7,
    message_buf_congr env g _ rendered h8, message_size_after_congr g _ rendered h8]

theorem trace_at_of_zero (env : Env) (g : Global) (point : Nat) (file func : Str)
    (line priority : Int) (rendered : Option Str)
    (h : (update_point env g point (basename file) func line priority).state point = 0) :
    trace_at_ env g point file func line priority rendered
      = update_point env g point (basename file) func line priority := by
  unfold trace_at_
  simp only [h, ne_eq, not_true_eq_false, if_false]

theorem wrap32_succ (n : Int) (h1 : 0 ≤ n) (h2 : n < INT_MAX) : wrap32 (n + 1) = n + 1 := by
  unfold wrap32
  unfold INT_MAX at h2
  omega

theorem wrap32_int_max : wrap32 (INT_MAX + 1) = -2147483648 := by
  unfold wrap32 INT_MAX
  norm_num

theorem state_neg_of_init_or_reinit (g : Global) (point : Nat)
    (h : g.state point = STATE_INIT ∨ g.state point = STATE_REINIT) : g.state point < 0 := by
  rcases h with h | h <;> rw [h] <;> decide

/-- What `trace_at_` does on a trace point that is on. -/
theorem trace_at_on (env : Env) (g : Global) (point : Nat) (file func : Str)
    (line priority : Int) (rendered : Option Str) (h : 1 ≤ g.state point) :
    trace_at_ env g point file func line priority rendered
      = { g with
          out := g.out ++ write_message g priority
            (format_header env g (basename file) line func priority (g.state point))
            (message_buf env g rendered),
          message_size := message_size_after g rendered,
          state := Function.update g.state point
            (if wrap32 (g.state point + 1) ≤ 0 then STATE_ONE
             else wrap32 (g.state point + 1)) } := by
  have hu : update_point env g point (basename file) func line priority = g :=
    update_point_of_nonneg env g point (basename file) func line priority (by omega)
  have hne : (update_point env g point (basename file) func line priority).state point ≠ 0 := by
    rw [hu]; omega
  rw [trace_at_of_ne_zero env g point file func line priority rendered hne, hu]

/-- What `trace_at_` does on a trace point that is evaluated and found on. -/
theorem trace_at_first (env : Env) (g : Global) (point : Nat) (file func : Str)
    (line priority : Int) (rendered : Option Str) (hneg : g.state point < 0)
    (hon : priority ≤ LOG_NOTICE ∨ is_trace_on env g (basename file) func line = true) :
    (trace_at_ env g point file func line priority rendered).state point = 2
    ∧ (trace_at_ env g point file func line priority rendered).out
        = g.out ++ write_message g priority
            (format_header env g (basename file) line func priority 1)
            (message_buf env g rendered)
    ∧ (trace_at_ env g point file func line priority rendered).trace_point_head
        = (if g.state point = STATE_INIT then point :: g.trace_point_head
           else g.trace_point_head)
    ∧ (trace_at_ env g point file func line priority rendered).trace_conf_head
        = g.trace_conf_head
    ∧ (trace_at_ env g point file func line priority rendered).use_syslog = g.use_syslog
    ∧ (trace_at_ env g point file func line priority rendered).trace_fp = g.trace_fp := by
  have hs : (update_point env g point (basename file) func line priority).state point = 1 := by
    rw [update_point_state_of_neg env g point (basename file) func line priority hneg,
      if_pos hon]
    rfl
  have hne : (update_point env g point (basename file) func line priority).state point ≠ 0 := by
    rw [hs]; decide
  obtain ⟨h1, h2, _, h4, _, _, _⟩ :=
    update_point_frame env g point (basename file) func line priority
  rw [trace_at_of_ne_zero env g point file func line priority rendered hne, hs]
  refine ⟨?_, rfl, ?_, h1, h2, h4⟩
  · simp only [Function.update_same]
    rw [if_neg (by decide)]
    decide
  · exact update_point_head env g point (basename file) func line priority

/-- Claim C2 (severity bypass): on a trace point in state INIT or REINIT, an
emit with a severity at most `LOG_NOTICE` finds the state ON(1) after
`update_point`, writes at least one record, each with the counter 1, after
what was written before, and leaves the state at 2, whatever the rules are. -/
theorem severity_bypass (env : Env) (g : Global) (point : Nat) (file func : Str)
    (line priority : Int) (rendered : Option Str)
    (hst : g.state point = STATE_INIT ∨ g.state point = STATE_REINIT)
    (hprio : priority ≤ LOG_NOTICE) :
    (update_point env g point (basename file) func line priority).state point = STATE_ONE
    ∧ (trace_at_ env g point file func line priority rendered).state point = 2
    ∧ (∃ written : List Output,
        (trace_at_ env g point file func line priority rendered).out = g.out ++ written
        ∧ written ≠ [] ∧ ∀ o ∈ written, o.counter? = some 1) := by
  have hneg := state_neg_of_init_or_reinit g point hst
  obtain ⟨h2, hout, _⟩ :=
    trace_at_first env g point file func line priority rendered hneg (Or.inl hprio)
  refine ⟨?_, h2, _, hout, write_message_ne_nil _ _ _ _, ?_⟩
  · rw [update_point_state_of_neg env g point (basename file) func line priority hneg,
      if_pos (Or.inl hprio)]
  · intro o ho
    exact write_message_counter _ _ _ _ o ho

/-- Witness of C2: a warning at `main.c:run` in a process whose only rule
disables every trace point. -/
theorem severity_bypass_witness :
    ((fresh [⟨false, ['*'], ['*']⟩]).state 0 = STATE_INIT
      ∨ (fresh [⟨false, ['*'], ['*']⟩]).state 0 = STATE_REINIT)
    ∧ LOG_WARNING ≤ LOG_NOTICE
    ∧ ((update_point sample_env (fresh [⟨false, ['*'], ['*']⟩]) 0
          (basename ['m', 'a', 'i', 'n', '.', 'c']) ['r', 'u', 'n'] 12 LOG_WARNING).state 0
        = STATE_ONE
      ∧ (trace_at_ sample_env (fresh [⟨false, ['*'], ['*']⟩]) 0
          ['m', 'a', 'i', 'n', '.', 'c'] ['r', 'u', 'n'] 12 LOG_WARNING
          (some ['h', 'i'])).state 0 = 2
      ∧ (∃ written : List Output,
          (trace_at_ sample_env (fresh [⟨false, ['*'], ['*']⟩]) 0
            ['m', 'a', 'i', 'n', '.', 'c'] ['r', 'u', 'n'] 12 LOG_WARNING
            (some ['h', 'i'])).out = (fresh [⟨false, ['*'], ['*']⟩]).out ++ written
          ∧ written ≠ [] ∧ ∀ o ∈ written, o.counter? = some 1)) :=
  ⟨Or.inl rfl, by decide,
   severity_bypass sample_env (fresh [⟨false, ['*'], ['*']⟩]) 0
     ['m', 'a', 'i', 'n', '.', 'c'] ['r', 'u', 'n'] 12 LOG_WARNING (some ['h', 'i'])
     (Or.inl rfl) (by decide)⟩

/-- Claim C3 (default policy): on a trace point in state INIT or REINIT whose
file and function no rule matches, the evaluation gives ON(1) if and only
if the severity is at most `LOG_NOTICE` and OFF otherwise, and the state
query, which evaluates at `LOG_DEBUG`, gives OFF. -/
theorem default_policy (env : Env) (g : Global) (point : Nat) (file func : Str)
    (line priority : Int)
    (hst : g.state point = STATE_INIT ∨ g.state point = STATE_REINIT)
    (hno : ∀ c ∈ g.trace_conf_head, rule_matches env c file func = false) :
    ((update_point env g point file func line priority).state point = STATE_ONE
        ↔ priority ≤ LOG_NOTICE)
    ∧ ((update_point env g point file func line priority).state point = STATE_OFF
        ↔ ¬ priority ≤ LOG_NOTICE)
    ∧ ∀ path : Str, basename path = file →
        (trace_state_at_ env g point path func line).state point = STATE_OFF := by
  have hneg := state_neg_of_init_or_reinit g point hst
  have hoff : is_trace_on env g file func line = false :=
    is_trace_on_of_no_match env g file func line hno
  have hup : ∀ prio : Int, (update_point env g point file func line prio).state point
      = if prio ≤ LOG_NOTICE then STATE_ONE else STATE_OFF := by
    intro prio
    rw [update_point_state_of_neg env g point file func line prio hneg, hoff]
    simp
  refine ⟨?_, ?_, ?_⟩
  · rw [hup]
    by_cases hp : priority ≤ LOG_NOTICE
    · simp [hp]
    · simp [hp, STATE_ONE, STATE_OFF]
  · rw [hup]
    by_cases hp : priority ≤ LOG_NOTICE
    · simp [hp, STATE_ONE, STATE_OFF]
    · simp [hp]
  · intro path hpath
    unfold trace_state_at_
    rw [hpath, hup]
    rw [if_neg (by decide)]

/-- Witness of C3: a query at `src/main.c:run` with the only rule for `foo.c`. -/
theorem default_policy_witness :
    ((fresh [⟨true, ['f', 'o', 'o', '.', 'c'], ['*']⟩]).state 3 = STATE_INIT
      ∨ (fresh [⟨true, ['f', 'o', 'o', '.', 'c'], ['*']⟩]).state 3 = STATE_REINIT)
    ∧ (∀ c ∈ (fresh [⟨true, ['f', 'o', 'o', '.', 'c'], ['*']⟩]).trace_conf_head,
        rule_matches sample_env c ['m', 'a', 'i', 'n', '.', 'c'] ['r', 'u', 'n'] = false)
    ∧ (((update_point sample_env (fresh [⟨true, ['f', 'o', 'o', '.', 'c'], ['*']⟩]) 3
          ['m', 'a', 'i', 'n', '.', 'c'] ['r', 'u', 'n'] 9 LOG_INFO).state 3 = STATE_ONE
          ↔ LOG_INFO ≤ LOG_NOTICE)
      ∧ ((update_point sample_env (fresh [⟨true, ['f', 'o', 'o', '.', 'c'], ['*']⟩]) 3
          ['m', 'a', 'i', 'n', '.', 'c'] ['r', 'u', 'n'] 9 LOG_INFO).state 3 = STATE_OFF
          ↔ ¬ LOG_INFO ≤ LOG_NOTICE)
      ∧ ∀ path : Str, basename path = ['m', 'a', 'i', 'n', '.', 'c'] →
          (trace_state_at_ sample_env (fresh [⟨true, ['f', 'o', 'o', '.', 'c'], ['*']⟩]) 3
            path ['r', 'u', 'n'] 9).state 3 = STATE_OFF) :=
  ⟨Or.inl rfl, by decide,
   default_policy sample_env (fresh [⟨true, ['f', 'o', 'o', '.', 'c'], ['*']⟩]) 3
     ['m', 'a', 'i', 'n', '.', 'c'] ['r', 'u', 'n'] 9 LOG_INFO (Or.inl rfl) (by decide)⟩

theorem trace_repeat_cons (env : Env) (point : Nat) (file func : Str) (line priority : Int)
    (rendered : Option Str) (payloads : List (Option Str)) (g : Global) :
    trace_repeat env point file func line priority (rendered :: payloads) g
      = trace_repeat env point file func line priority payloads
          (trace_at_ env g point file func line priority rendered) := rfl

/-- Consecutive emits on a trace point that is on, below the largest counter. -/
theorem trace_repeat_on (env : Env) (point : Nat) (file func : Str) (line priority : Int)
    (payloads : List (Option Str)) :
    ∀ g : Global, 1 ≤ g.state point → g.state point + payloads.length ≤ INT_MAX →
      (trace_repeat env point file func line priority payloads g).state point
        = g.state point + payloads.length
      ∧ ∃ blocks : List (List Output), blocks.length = payloads.length
        ∧ (trace_repeat env point file func line priority payloads g).out
            = g.out ++ blocks.flatten
        ∧ ∀ (k : Nat) (b : List Output), blocks[k]? = some b →
            b ≠ [] ∧ ∀ o ∈ b, o.counter? = some (g.state point + k) := by
  induction payloads with
  | nil =>
    intro g _ _
    refine ⟨by simp [trace_repeat], [], rfl, by simp [trace_repeat], ?_⟩
    intro k b hb
    simp at hb
  | cons m ms ih =>
    intro g h1 hmax
    have hlen : ((m :: ms).length : Int) = (ms.length : Int) + 1 := by
      simp
    rw [hlen] at hmax
    have hlt : g.state point < INT_MAX := by omega
    have hw : wrap32 (g.state point + 1) = g.state point + 1 :=
      wrap32_succ _ (by omega) hlt
    have hstep := trace_at_on env g point file func line priority m h1
    rw [hw, if_neg (by omega)] at hstep
    have hs1 : (trace_at_ env g point file func line priority m).state point
        = g.state point + 1 := by
      rw [hstep]; simp only [Function.update_same]
    have hout1 : (trace_at_ env g point file func line priority m).out
        = g.out ++ write_message g priority
            (format_header env g (basename file) line func priority (g.state point))
            (message_buf env g m) := by
      rw [hstep]
    obtain ⟨hst, blocks, hbl, hout, hcnt⟩ :=
      ih (trace_at_ env g point file func line priority m)
        (by rw [hs1]; omega) (by rw [hs1]; omega)
    rw [trace_repeat_cons]
    refine ⟨by rw [hst, hs1, hlen]; ring,
      write_message g priority
        (format_header env g (basename file) line func priority (g.state point))
        (message_buf env g m) :: blocks,
      by simp [hbl], ?_, ?_⟩
    · rw [hout, hout1, List.flatten_cons, List.append_assoc]
    · intro k b hb
      cases k with
      | zero =>
        simp only [List.getElem?_cons_zero, Option.some.injEq] at hb
        subst hb
        refine ⟨write_message_ne_nil _ _ _ _, ?_⟩
        intro o ho
        rw [write_message_counter _ _ _ _ o ho]
        simp [format_header]
      | succ j =>
        simp only [List.getElem?_cons_succ] at hb
        obtain ⟨hne, hc⟩ := hcnt j b hb
        refine ⟨hne, ?_⟩
        intro o ho
        rw [hc o ho, hs1]
        congr 1
        push_cast
        ring

/-- Claim C4 (monotonic counting): N consecutive emits, N at least 1 and
below `INT_MAX`, on a trace point that starts in state INIT and is found
enabled, whatever the payloads are, write N blocks of records one after the
other, the k-th block (from 0) not empty and all of it with the counter
k+1, and leave the state at N+1. -/
theorem monotonic_counting (env : Env) (g : Global) (point : Nat) (file func : Str)
    (line priority : Int) (payloads : List (Option Str))
    (hinit : g.state point = STATE_INIT)
    (hon : priority ≤ LOG_NOTICE ∨ is_trace_on env g (basename file) func line = true)
    (hN : 1 ≤ payloads.length) (hmax : (payloads.length : Int) < INT_MAX) :
    (trace_repeat env point file func line priority payloads g).state point
      = (payloads.length : Int) + 1
    ∧ ∃ blocks : List (List Output), blocks.length = payloads.length
      ∧ (trace_repeat env point file func line priority payloads g).out
          = g.out ++ blocks.flatten
      ∧ ∀ (k : Nat) (b : List Output), blocks[k]? = some b →
          b ≠ [] ∧ ∀ o ∈ b, o.counter? = some ((k : Int) + 1) := by
  cases payloads with
  | nil => simp at hN
  | cons m ms =>
    have hlen : ((m :: ms).length : Int) = (ms.length : Int) + 1 := by
      simp
    rw [hlen] at hmax
    have hneg : g.state point < 0 := by rw [hinit]; decide
    obtain ⟨hs1, hout1, _⟩ := trace_at_first env g point file func line priority m hneg hon
    obtain ⟨hst, blocks, hbl, hout, hcnt⟩ :=
      trace_repeat_on env point file func line priority ms
        (trace_at_ env g point file func line priority m)
        (by rw [hs1]; decide) (by rw [hs1]; omega)
    rw [trace_repeat_cons]
    refine ⟨by rw [hst, hs1, hlen]; ring,
      write_message g priority
        (format_header env g (basename file) line func priority 1)
        (message_buf env g m) :: blocks,
      by simp [hbl], ?_, ?_⟩
    · rw [hout, hout1, List.flatten_cons, List.append_assoc]
    · intro k b hb
      cases k with
      | zero =>
        simp only [List.getElem?_cons_zero, Option.some.injEq] at hb
        subst hb
        refine ⟨write_message_ne_nil _ _ _ _, ?_⟩
        intro o ho
        rw [write_message_counter _ _ _ _ o ho]
        simp [format_header]
      | succ j =>
        simp only [List.getElem?_cons_succ] at hb
        obtain ⟨hne, hc⟩ := hcnt j b hb
        refine ⟨hne, ?_⟩
        intro o ho
        rw [hc o ho, hs1]
        congr 1
        push_cast
        ring

/-- Witness of C4: three debug emits at `main.c:run`, enabled by the rule
`+ * *`, without a payload, with one line and with two lines. -/
theorem monotonic_counting_witness :
    (fresh [⟨true, ['*'], ['*']⟩]).state 0 = STATE_INIT
    ∧ (LOG_DEBUG ≤ LOG_NOTICE
        ∨ is_trace_on sample_env (fresh [⟨true, ['*'], ['*']⟩])
            (basename ['m', 'a', 'i', 'n', '.', 'c']) ['r', 'u', 'n'] 12 = true)
    ∧ 1 ≤ [none, some ['a'], some ['x', '\n', 'y']].length
    ∧ (([none, some ['a'], some ['x', '\n', 'y']].length : Nat) : Int) < INT_MAX
    ∧ ((trace_repeat sample_env 0 ['m', 'a', 'i', 'n', '.', 'c'] ['r', 'u', 'n'] 12 LOG_DEBUG
          [none, some ['a'], some ['x', '\n', 'y']] (fresh [⟨true, ['*'], ['*']⟩])).state 0
        = (([none, some ['a'], some ['x', '\n', 'y']].length : Nat) : Int) + 1
      ∧ ∃ blocks : List (List Output),
        blocks.length = [none, some ['a'], some ['x', '\n', 'y']].length
        ∧ (trace_repeat sample_env 0 ['m', 'a', 'i', 'n', '.', 'c'] ['r', 'u', 'n'] 12
            LOG_DEBUG [none, some ['a'], some ['x', '\n', 'y']]
            (fresh [⟨true, ['*'], ['*']⟩])).out
            = (fresh [⟨true, ['*'], ['*']⟩]).out ++ blocks.flatten
        ∧ ∀ (k : Nat) (b : List Output), blocks[k]? = some b →
            b ≠ [] ∧ ∀ o ∈ b, o.counter? = some ((k : Int) + 1)) :=
  ⟨rfl, Or.inr (by decide), by decide, by decide,
   monotonic_counting sample_env (fresh [⟨true, ['*'], ['*']⟩]) 0
     ['m', 'a', 'i', 'n', '.', 'c'] ['r', 'u', 'n'] 12 LOG_DEBUG
     [none, some ['a'], some ['x', '\n', 'y']] rfl (Or.inr (by decide)) (by decide)
     (by decide)⟩

/-- Claim C5 (counter wrap-around): an emit on a trace point in state ON(n),
n from 1 to `INT_MAX`, leaves the state at n+1, or at 1 when n is
`INT_MAX`; the state after it is positive. -/
theorem counter_wraps (env : Env) (g : Global) (point : Nat) (file func : Str)
    (line priority : Int) (rendered : Option Str)
    (h1 : 1 ≤ g.state point) (hmax : g.state point ≤ INT_MAX) :
    (trace_at_ env g point file func line priority rendered).state point
      = (if g.state point = INT_MAX then STATE_ONE else g.state point + 1)
    ∧ 0 < (trace_at_ env g point file func line priority rendered).state point := by
  rw [trace_at_on env g point file func line priority rendered h1]
  simp only [Function.update_same]
  by_cases hm : g.state point = INT_MAX
  · rw [hm, wrap32_int_max, if_pos (by decide), if_pos rfl]
    exact ⟨rfl, by decide⟩
  · have hlt : g.state point < INT_MAX := lt_of_le_of_ne hmax hm
    rw [wrap32_succ _ (by omega) hlt, if_neg (by omega), if_neg hm]
    exact ⟨rfl, by omega⟩

/-- Witness of C5: an emit on a trace point whose counter is `INT_MAX`. -/
theorem counter_wraps_witness :
    1 ≤ ({ Global.initial with state := fun _ => INT_MAX } : Global).state 0
    ∧ ({ Global.initial with state := fun _ => INT_MAX } : Global).state 0 ≤ INT_MAX
    ∧ ((trace_at_ sample_env { Global.initial with state := fun _ => INT_MAX } 0
          ['m', 'a', 'i', 'n', '.', 'c'] ['r', 'u', 'n'] 12 LOG_DEBUG none).state 0
        = (if ({ Global.initial with state := fun _ => INT_MAX } : Global).state 0 = INT_MAX
           then STATE_ONE
           else ({ Global.initial with state := fun _ => INT_MAX } : Global).state 0 + 1)
      ∧ 0 < (trace_at_ sample_env { Global.initial with state := fun _ => INT_MAX } 0
          ['m', 'a', 'i', 'n', '.', 'c'] ['r', 'u', 'n'] 12 LOG_DEBUG none).state 0) :=
  ⟨by decide, by decide,
   counter_wraps sample_env { Global.initial with state := fun _ => INT_MAX } 0
     ['m', 'a', 'i', 'n', '.', 'c'] ['r', 'u', 'n'] 12 LOG_DEBUG none (by decide) (by decide)⟩

theorem trace_state_at_decided (env : Env) (g : Global) (point : Nat) (file func : Str)
    (line : Int) : 0 ≤ (trace_state_at_ env g point file func line).state point := by
  unfold trace_state_at_
  by_cases h : g.state point < 0
  · rw [update_point_state_of_neg env g point (basename file) func line LOG_DEBUG h]
    split <;> decide
  · rw [update_point_of_nonneg env g point (basename file) func line LOG_DEBUG (not_lt.mp h)]
    exact not_lt.mp h

/-- Claim C8 (idempotence of the state query): after a call of
`trace_state_at_` the state of the trace point is decided (not negative),
and a second call, whatever its arguments, gives back the very same global
state, so the same answer, the same states and the same registry; a trace
point that is OFF is left as it is, with no insertion. -/
theorem state_query_idempotent (env : Env) (g : Global) (point : Nat) (file func : Str)
    (line : Int) (file1 func1 : Str) (line1 : Int) :
    0 ≤ (trace_state_at_ env g point file func line).state point
    ∧ trace_state_at_ env (trace_state_at_ env g point file func line) point file1 func1 line1
        = trace_state_at_ env g point file func line
    ∧ (g.state point = STATE_OFF → trace_state_at_ env g point file func line = g) := by
  refine ⟨trace_state_at_decided env g point file func line, ?_, ?_⟩
  · exact update_point_of_nonneg env _ point (basename file1) func1 line1 LOG_DEBUG
      (trace_state_at_decided env g point file func line)
  · intro hoff
    exact update_point_of_nonneg env g point (basename file) func line LOG_DEBUG
      (by rw [hoff]; decide)

/-! ## Loading the configuration -/

theorem sign_offset_cases (t : Str) : sign_offset t = 0 ∨ sign_offset t = 1 := by
  unfold sign_offset
  split
  · exact Or.inr rfl
  · split
    · exact Or.inr rfl
    · exact Or.inl rfl

theorem system_trace_state (env : Env) (g : Global) (priority : Int) (msg : SysMsg) :
    (system_trace env g priority msg).state = g.state := by
  unfold system_trace; split <;> rfl

theorem system_trace_head (env : Env) (g : Global) (priority : Int) (msg : SysMsg) :
    (system_trace env g priority msg).trace_point_head = g.trace_point_head := by
  unfold system_trace; split <;> rfl

theorem system_trace_conf (env : Env) (g : Global) (priority : Int) (msg : SysMsg) :
    (system_trace env g priority msg).trace_conf_head = g.trace_conf_head := by
  unfold system_trace; split <;> rfl

theorem add_conf_state (env : Env) (g : Global) (enable : Bool) (file_pattern func_pattern : Str) :
    (add_conf env g enable file_pattern func_pattern).state = g.state := by
  simp only [add_conf, system_trace_state]

theorem add_conf_head (env : Env) (g : Global) (enable : Bool) (file_pattern func_pattern : Str) :
    (add_conf env g enable file_pattern func_pattern).trace_point_head = g.trace_point_head := by
  simp only [add_conf, system_trace_head]

theorem add_conf_conf (env : Env) (g : Global) (enable : Bool) (file_pattern func_pattern : Str) :
    (add_conf env g enable file_pattern func_pattern).trace_conf_head
      = g.trace_conf_head ++ [⟨enable, file_pattern, func_pattern⟩] := by
  simp only [add_conf, system_trace_conf]

theorem set_conf_state (env : Env) (w : World) (g : Global) (name value : Str) :
    (set_conf env w g name value).state = g.state := by
  unfold set_conf
  split
  · simp only
    split <;> split <;> simp only [system_trace_state]
  · split <;> rfl

theorem set_conf_head (env : Env) (w : World) (g : Global) (name value : Str) :
    (set_conf env w g name value).trace_point_head = g.trace_point_head := by
  unfold set_conf
  split
  · simp only
    split <;> split <;> simp only [system_trace_head]
  · split <;> rfl

theorem set_conf_conf (env : Env) (w : World) (g : Global) (name value : Str) :
    (set_conf env w g name value).trace_conf_head = g.trace_conf_head := by
  unfold set_conf
  split
  · simp only
    split <;> split <;> simp only [system_trace_conf]
  · split <;> rfl

theorem tokenize_nil : tokenize [] = [] := by decide

/-- What a line that is processed to its end does: the states and the
registry are as before, the rule of the line is appended. -/
theorem conf_line_some (env : Env) (w : World) (conf_file : Str) (conf_line_no : Nat)
    (g g1 : Global) (text : Str)
    (h : conf_line env w conf_file conf_line_no g text = some g1) :
    g1.state = g.state ∧ g1.trace_point_head = g.trace_point_head
    ∧ g1.trace_conf_head = g.trace_conf_head ++ (line_rule env text).toList := by
  unfold conf_line at h
  unfold line_rule
  by_cases h0 : text.length = 0
  · rw [if_pos h0] at h
    have : text = [] := List.length_eq_zero.mp h0
    subst this
    rw [tokenize_nil]
    cases h
    simp
  · rw [if_neg h0] at h
    generalize tokenize text = toks at h ⊢
    rcases toks with _ | ⟨t0, ts⟩
    · cases h; simp
    · simp only at h ⊢
      rcases sign_offset_cases t0 with hs | hs
      · rw [hs] at h ⊢
        simp only [List.drop_zero] at h ⊢
        by_cases hp : env.fnmatch t0 env.program_invocation_short_name ≠ 0
        · rw [if_pos hp] at h ⊢
          cases h; simp
        · rw [if_neg hp] at h ⊢
          rcases ts with _ | ⟨a, _ | ⟨b, _ | ⟨c, _ | ⟨d, rest⟩⟩⟩⟩
          all_goals simp at h ⊢
          all_goals first
            | (subst h
               simp [system_trace_state, system_trace_head, system_trace_conf,
                 add_conf_state, add_conf_head, add_conf_conf])
            | (split at h <;> cases h <;>
                 simp [system_trace_state, system_trace_head, system_trace_conf,
                   set_conf_state, set_conf_head, set_conf_conf])
      · rw [hs] at h ⊢
        rcases ts with _ | ⟨p, args⟩
        · simp at h
        · simp only [List.drop_succ_cons, List.drop_zero] at h ⊢
          by_cases hp : env.fnmatch p env.program_invocation_short_name ≠ 0
          · rw [if_pos hp] at h ⊢
            cases h; simp
          · rw [if_neg hp] at h ⊢
            rcases args with _ | ⟨a, _ | ⟨b, _ | ⟨c, rest⟩⟩⟩
            all_goals simp at h ⊢
            all_goals
              (subst h
               simp [system_trace_state, system_trace_head, system_trace_conf,
                 add_conf_state, add_conf_head, add_conf_conf])

/-- A line is processed to its end unless it is a lone sign. -/
theorem conf_line_eq_none_iff (env : Env) (w : World) (conf_file : Str) (conf_line_no : Nat)
    (g : Global) (text : Str) :
    conf_line env w conf_file conf_line_no g text = none ↔ lone_sign text = true := by
  unfold conf_line lone_sign
  by_cases h0 : text.length = 0
  · rw [if_pos h0]
    have : text = [] := List.length_eq_zero.mp h0
    subst this
    rw [tokenize_nil]
    simp
  · rw [if_neg h0]
    generalize tokenize text = toks
    rcases toks with _ | ⟨t0, ts⟩
    · simp
    · simp only
      rcases sign_offset_cases t0 with hs | hs
      · rw [hs]
        simp only [List.drop_zero]
        by_cases hp : env.fnmatch t0 env.program_invocation_short_name ≠ 0
        · rw [if_pos hp]
          rcases ts with _ | ⟨a, rest⟩ <;> simp [hs]
        · rw [if_neg hp]
          rcases ts with _ | ⟨a, _ | ⟨b, _ | ⟨c, _ | ⟨d, rest⟩⟩⟩⟩
          all_goals simp [hs]
          split <;> simp
      · rw [hs]
        rcases ts with _ | ⟨p, args⟩
        · simp [hs]
        · simp only [List.drop_succ_cons, List.drop_zero]
          by_cases hp : env.fnmatch p env.program_invocation_short_name ≠ 0
          · rw [if_pos hp]
            simp
          · rw [if_neg hp]
            rcases args with _ | ⟨a, _ | ⟨b, _ | ⟨c, rest⟩⟩⟩
            all_goals simp

theorem read_lines_some (env : Env) (w : World) (conf_file : Str) (lines : List Str) :
    ∀ (conf_line_no : Nat) (g g1 : Global),
      read_lines env w conf_file conf_line_no g lines = some g1 →
      g1.state = g.state ∧ g1.trace_point_head = g.trace_point_head
      ∧ g1.trace_conf_head = g.trace_conf_head ++ lines.filterMap (line_rule env) := by
  induction lines with
  | nil =>
    intro no g g1 h
    simp only [read_lines, Option.some.injEq] at h
    subst h
    simp
  | cons text rest ih =>
    intro no g g1 h
    unfold read_lines at h
    cases hl : conf_line env w conf_file no g text with
    | none => rw [hl] at h; cases h
    | some g2 =>
      rw [hl] at h
      simp only at h
      obtain ⟨a1, a2, a3⟩ := conf_line_some env w conf_file no g g2 text hl
      obtain ⟨b1, b2, b3⟩ := ih (no + 1) g2 g1 h
      refine ⟨b1.trans a1, b2.trans a2, ?_⟩
      rw [b3, a3, List.append_assoc]
      cases hr : line_rule env text <;> simp [List.filterMap_cons, hr]

theorem read_lines_total (env : Env) (w : World) (conf_file : Str) (lines : List Str)
    (hok : lines.any lone_sign = false) :
    ∀ (conf_line_no : Nat) (g : Global),
      ∃ g1, read_lines env w conf_file conf_line_no g lines = some g1 := by
  induction lines with
  | nil => intro no g; exact ⟨g, rfl⟩
  | cons text rest ih =>
    intro no g
    simp only [List.any_cons, Bool.or_eq_false_iff] at hok
    unfold read_lines
    cases hl : conf_line env w conf_file no g text with
    | none =>
      have := (conf_line_eq_none_iff env w conf_file no g text).mp hl
      rw [hok.1] at this
      cases this
    | some g2 => exact ih hok.2 (no + 1) g2

/-- A load that returns leaves the states and the registry as they were. -/
theorem load_conf_points (env : Env) (w : World) (g g1 : Global)
    (h : load_conf env w g = some g1) :
    g1.state = g.state ∧ g1.trace_point_head = g.trace_point_head := by
  unfold load_conf at h
  simp only at h
  split at h
  · split at h <;> cases h <;>
      simp [system_trace_state, system_trace_head]
  · obtain ⟨a1, a2, _⟩ := read_lines_some env w _ _ _ _ _ h
    simp only [system_trace_state, system_trace_head] at a1 a2
    exact ⟨a1, a2⟩

/-- A load that returns, of a file that opens, leaves the rules of the file. -/
theorem load_conf_rules (env : Env) (w : World) (g g1 : Global) (content : Str)
    (hopen : w.fopen_r (conf_file_name w) = Except.ok content)
    (h : load_conf env w g = some g1) :
    g1.trace_conf_head = file_rules env content := by
  unfold load_conf at h
  simp only [hopen] at h
  obtain ⟨_, _, a3⟩ := read_lines_some env w _ _ _ _ _ h
  simpa [file_rules] using a3

/-- A load returns when no line of the file is a lone sign. -/
theorem load_conf_total (env : Env) (w : World) (g : Global) (hok : load_faults w = false) :
    ∃ g1, load_conf env w g = some g1 := by
  unfold load_faults at hok
  unfold load_conf
  simp only
  split
  · split <;> exact ⟨_, rfl⟩
  · rename_i content hopen
    rw [hopen] at hok
    exact read_lines_total env w _ _ hok _ _

/-- Witness of C8: a query on a trace point that is OFF. -/
theorem state_query_idempotent_witness :
    ({ Global.initial with state := fun _ => STATE_OFF } : Global).state 0 = STATE_OFF
    ∧ trace_state_at_ sample_env { Global.initial with state := fun _ => STATE_OFF } 0
        ['m', 'a', 'i', 'n', '.', 'c'] ['r', 'u', 'n'] 12
      = { Global.initial with state := fun _ => STATE_OFF } :=
  ⟨rfl,
   (state_query_idempotent sample_env { Global.initial with state := fun _ => STATE_OFF } 0
      ['m', 'a', 'i', 'n', '.', 'c'] ['r', 'u', 'n'] 12 [] [] 0).2.2 rfl⟩

/-! ## Reload -/

theorem trace_load_some (env : Env) (w : World) (g g1 : Global)
    (h : trace_load env w g = some g1) :
    g1.trace_point_head = g.trace_point_head
    ∧ ∀ point, g1.state point
        = if point ∈ g.trace_point_head then STATE_REINIT else g.state point := by
  unfold trace_load at h
  obtain ⟨a1, a2⟩ := load_conf_points env w _ g1 h
  refine ⟨a2, ?_⟩
  intro point
  rw [a1]

theorem trace_load_total (env : Env) (w : World) (g : Global) (hok : load_faults w = false) :
    ∃ g1, trace_load env w g = some g1 :=
  load_conf_total env w _ hok

/-- Claim C6 (reload marks the registry): `trace_load` returns when no line
of the file is a lone sign, and when it returns the registry is the same
list as before, every trace point of the registry is in state REINIT, so
neither OFF nor ON, and every other trace point has the state it had; when
the trace points outside the registry were in state INIT, no trace point at
all is ON or OFF afterwards. -/
theorem trace_load_marks_registry (env : Env) (w : World) (g : Global) :
    (load_faults w = false → ∃ g1, trace_load env w g = some g1)
    ∧ ∀ g1, trace_load env w g = some g1 →
        g1.trace_point_head = g.trace_point_head
        ∧ (∀ point ∈ g.trace_point_head, g1.state point = STATE_REINIT)
        ∧ (∀ point, point ∉ g.trace_point_head → g1.state point = g.state point)
        ∧ (∀ point ∈ g1.trace_point_head,
            g1.state point ≠ STATE_OFF ∧ ¬ 0 < g1.state point)
        ∧ ((∀ point, point ∉ g.trace_point_head → g.state point = STATE_INIT) →
            ∀ point, g1.state point < 0) := by
  refine ⟨trace_load_total env w g, ?_⟩
  intro g1 h
  obtain ⟨hh, hs⟩ := trace_load_some env w g g1 h
  refine ⟨hh, ?_, ?_, ?_, ?_⟩
  · intro point hp
    rw [hs, if_pos hp]
  · intro point hp
    rw [hs, if_neg hp]
  · intro point hp
    rw [hh] at hp
    rw [hs, if_pos hp]
    exact ⟨by decide, by decide⟩
  · intro hout point
    rw [hs]
    by_cases hp : point ∈ g.trace_point_head
    · rw [if_pos hp]; decide
    · rw [if_neg hp, hout point hp]; decide

/-- Witness of C6: a reload with the trace point 0 registered at counter 5
and the trace point 1 not yet evaluated. -/
theorem trace_load_marks_registry_witness :
    load_faults (sample_world ['+', ' ', 'm', 'y', 'a', 'p', 'p', ' ', '*', '\n']) = false
    ∧ ∃ g1,
        trace_load sample_env (sample_world ['+', ' ', 'm', 'y', 'a', 'p', 'p', ' ', '*', '\n'])
          { Global.initial with
            state := fun point => if point = 0 then 5 else STATE_INIT,
            trace_point_head := [0] } = some g1
        ∧ g1.trace_point_head = [0] ∧ g1.state 0 = STATE_REINIT ∧ g1.state 1 = STATE_INIT :=
  ⟨by decide, by
    obtain ⟨g1, h⟩ :=
      (trace_load_marks_registry sample_env
        (sample_world ['+', ' ', 'm', 'y', 'a', 'p', 'p', ' ', '*', '\n'])
        { Global.initial with
          state := fun point => if point = 0 then 5 else STATE_INIT,
          trace_point_head := [0] }).1 (by decide)
    obtain ⟨a1, a2, a3, _⟩ :=
      (trace_load_marks_registry sample_env
        (sample_world ['+', ' ', 'm', 'y', 'a', 'p', 'p', ' ', '*', '\n'])
        { Global.initial with
          state := fun point => if point = 0 then 5 else STATE_INIT,
          trace_point_head := [0] }).2 g1 h
    exact ⟨g1, h, a1, a2 0 (by decide), (a3 1 (by decide)).trans rfl⟩⟩

theorem trace_at_head (env : Env) (g : Global) (point : Nat) (file func : Str)
    (line priority : Int) (rendered : Option Str) :
    (trace_at_ env g point file func line priority rendered).trace_point_head
      = if g.state point = STATE_INIT then point :: g.trace_point_head
        else g.trace_point_head := by
  rw [← update_point_head env g point (basename file) func line priority]
  by_cases h : (update_point env g point (basename file) func line priority).state point = 0
  · rw [trace_at_of_zero env g point file func line priority rendered h]
  · rw [trace_at_of_ne_zero env g point file func line priority rendered h]

theorem trace_at_state_of_neg (env : Env) (g : Global) (point : Nat) (file func : Str)
    (line priority : Int) (rendered : Option Str) (hneg : g.state point < 0) :
    (trace_at_ env g point file func line priority rendered).state point
      = if priority ≤ LOG_NOTICE ∨ is_trace_on env g (basename file) func line = true
        then 2 else STATE_OFF := by
  by_cases hon : priority ≤ LOG_NOTICE ∨ is_trace_on env g (basename file) func line = true
  · rw [if_pos hon]
    exact (trace_at_first env g point file func line priority rendered hneg hon).1
  · rw [if_neg hon]
    have hs : (update_point env g point (basename file) func line priority).state point = 0 := by
      rw [update_point_state_of_neg env g point (basename file) func line priority hneg,
        if_neg hon]
      rfl
    rw [trace_at_of_zero env g point file func line priority rendered hs, hs]
    rfl

/-- Claim C7 (reload correctness): `trace_load` returns when no line of the
file is a lone sign; when it returns after it opened the file, a trace point
of the registry is in state REINIT, the rules are those of the file, and the
next state query or emit on the trace point leaves it in the state that the
same call leaves a trace point in state INIT in, in a process that has the
rules of the file and nothing else, and leaves the registry as it was
before the reload; a trace point that the rules of the file do not turn on
is OFF after the state query. -/
theorem reload_rederives (env : Env) (w : World) (g : Global) (content : Str) (point : Nat)
    (file func : Str) (line priority : Int) (rendered : Option Str)
    (hreg : point ∈ g.trace_point_head)
    (hopen : w.fopen_r (conf_file_name w) = Except.ok content) :
    (load_faults w = false → ∃ g1, trace_load env w g = some g1)
    ∧ ∀ g1, trace_load env w g = some g1 →
        g1.state point = STATE_REINIT
        ∧ g1.trace_conf_head = file_rules env content
        ∧ (trace_state_at_ env g1 point file func line).state point
            = (trace_state_at_ env (fresh (file_rules env content)) point file func
                line).state point
        ∧ (trace_at_ env g1 point file func line priority rendered).state point
            = (trace_at_ env (fresh (file_rules env content)) point file func line priority
                rendered).state point
        ∧ (trace_state_at_ env g1 point file func line).trace_point_head
            = g.trace_point_head
        ∧ (trace_at_ env g1 point file func line priority rendered).trace_point_head
            = g.trace_point_head
        ∧ (is_trace_on env (fresh (file_rules env content)) (basename file) func line = false →
            (trace_state_at_ env g1 point file func line).state point = STATE_OFF) := by
  refine ⟨trace_load_total env w g, ?_⟩
  intro g1 h
  obtain ⟨hh, hs⟩ := trace_load_some env w g g1 h
  have hre : g1.state point = STATE_REINIT := by rw [hs, if_pos hreg]
  have hrules : g1.trace_conf_head = file_rules env content :=
    load_conf_rules env w _ g1 content hopen h
  have hneg : g1.state point < 0 := by rw [hre]; decide
  have hni : g1.state point ≠ STATE_INIT := by rw [hre]; decide
  have hfneg : (fresh (file_rules env content)).state point < 0 :=
    show STATE_INIT < 0 by decide
  have hon : ∀ ln : Int, is_trace_on env g1 (basename file) func ln
      = is_trace_on env (fresh (file_rules env content)) (basename file) func ln :=
    fun ln => is_trace_on_congr env _ g1 (basename file) func ln ln hrules
  refine ⟨hre, hrules, ?_, ?_, ?_, ?_, ?_⟩
  · unfold trace_state_at_
    rw [update_point_state_of_neg env g1 point _ func line LOG_DEBUG hneg,
      update_point_state_of_neg env _ point _ func line LOG_DEBUG hfneg, hon]
  · rw [trace_at_state_of_neg env g1 point file func line priority rendered hneg,
      trace_at_state_of_neg env _ point file func line priority rendered hfneg, hon]
  · unfold trace_state_at_
    rw [update_point_head, if_neg hni, hh]
  · rw [trace_at_head, if_neg hni, hh]
  · intro hoff
    unfold trace_state_at_
    rw [update_point_state_of_neg env g1 point _ func line LOG_DEBUG hneg, hon, hoff]
    rw [if_neg (by decide)]

/-- Witness of C7: the trace point 0 at `main.c:run` is at counter 3 under
the rule `+ * *`; after the reload of a file without that rule the state
query finds it OFF. -/
theorem reload_rederives_witness :
    0 ∈ ({ fresh [⟨true, ['*'], ['*']⟩] with
            state := fun point => if point = 0 then 3 else STATE_INIT,
            trace_point_head := [0] } : Global).trace_point_head
    ∧ (sample_world sample_conf).fopen_r (conf_file_name (sample_world sample_conf))
        = Except.ok sample_conf
    ∧ load_faults (sample_world sample_conf) = false
    ∧ ∃ g1,
        trace_load sample_env (sample_world sample_conf)
          { fresh [⟨true, ['*'], ['*']⟩] with
            state := fun point => if point = 0 then 3 else STATE_INIT,
            trace_point_head := [0] } = some g1
        ∧ (trace_state_at_ sample_env g1 0 ['m', 'a', 'i', 'n', '.', 'c'] ['r', 'u', 'n']
            12).state 0 = STATE_OFF
        ∧ (trace_state_at_ sample_env g1 0 ['m', 'a', 'i', 'n', '.', 'c'] ['r', 'u', 'n']
            12).trace_point_head = [0] :=
  ⟨by decide, rfl, by decide, by
    obtain ⟨g1, h⟩ :=
      (reload_rederives sample_env (sample_world sample_conf)
        { fresh [⟨true, ['*'], ['*']⟩] with
          state := fun point => if point = 0 then 3 else STATE_INIT,
          trace_point_head := [0] }
        sample_conf 0 ['m', 'a', 'i', 'n', '.', 'c'] ['r', 'u', 'n'] 12 LOG_DEBUG none
        (by decide) rfl).1 (by decide)
    obtain ⟨_, _, _, _, a5, _, a7⟩ :=
      (reload_rederives sample_env (sample_world sample_conf)
        { fresh [⟨true, ['*'], ['*']⟩] with
          state := fun point => if point = 0 then 3 else STATE_INIT,
          trace_point_head := [0] }
        sample_conf 0 ['m', 'a', 'i', 'n', '.', 'c'] ['r', 'u', 'n'] 12 LOG_DEBUG none
        (by decide) rfl).2 g1 h
    exact ⟨g1, h, a7 (by decide), a5⟩⟩

/-! ## The registry -/

theorem update_point_state_nonneg (env : Env) (g : Global) (point : Nat) (file func : Str)
    (line priority : Int) :
    0 ≤ (update_point env g point file func line priority).state point := by
  by_cases h : g.state point < 0
  · rw [update_point_state_of_neg env g point file func line priority h]
    split <;> decide
  · rw [update_point_of_nonneg env g point file func line priority (not_lt.mp h)]
    exact not_lt.mp h

theorem update_point_inv (env : Env) (g : Global) (point : Nat) (file func : Str)
    (line priority : Int) (hinv : registry_inv g) :
    registry_inv (update_point env g point file func line priority) := by
  obtain ⟨hnd, hiff⟩ := hinv
  have hst := update_point_state_nonneg env g point file func line priority
  have hother := update_point_state_other env g point
  refine ⟨?_, ?_⟩
  · rw [update_point_head]
    by_cases hi : g.state point = STATE_INIT
    · rw [if_pos hi]
      have hnot : point ∉ g.trace_point_head := fun hm => (hiff point).mp hm hi
      exact List.nodup_cons.mpr ⟨hnot, hnd⟩
    · rw [if_neg hi]; exact hnd
  · intro q
    rw [update_point_head]
    by_cases hq : q = point
    · subst hq
      have hne : (update_point env g q file func line priority).state q ≠ STATE_INIT := by
        intro hc; rw [hc] at hst; exact absurd hst (by decide)
      by_cases hi : g.state q = STATE_INIT
      · rw [if_pos hi]
        exact ⟨fun _ => hne, fun _ => List.mem_cons_self q _⟩
      · rw [if_neg hi]
        exact ⟨fun _ => hne, fun _ => (hiff q).mpr hi⟩
    · rw [hother q file func line priority hq]
      by_cases hi : g.state point = STATE_INIT
      · rw [if_pos hi]
        rw [List.mem_cons]
        constructor
        · rintro (h | h)
          · exact absurd h hq
          · exact (hiff q).mp h
        · intro h; exact Or.inr ((hiff q).mpr h)
      · rw [if_neg hi]; exact hiff q

theorem trace_at_state_other (env : Env) (g : Global) (point other : Nat) (file func : Str)
    (line priority : Int) (rendered : Option Str) (h : other ≠ point) :
    (trace_at_ env g point file func line priority rendered).state other = g.state other := by
  rw [← update_point_state_other env g point other (basename file) func line priority h]
  by_cases h0 : (update_point env g point (basename file) func line priority).state point = 0
  · rw [trace_at_of_zero env g point file func line priority rendered h0]
  · rw [trace_at_of_ne_zero env g point file func line priority rendered h0]
    simp only [Function.update_noteq h]

theorem trace_at_state_nonneg (env : Env) (g : Global) (point : Nat) (file func : Str)
    (line priority : Int) (rendered : Option Str) :
    0 ≤ (trace_at_ env g point file func line priority rendered).state point := by
  by_cases h0 : (update_point env g point (basename file) func line priority).state point = 0
  · rw [trace_at_of_zero env g point file func line priority rendered h0, h0]
  · rw [trace_at_of_ne_zero env g point file func line priority rendered h0]
    simp only [Function.update_same]
    split
    · decide
    · omega

theorem trace_at_inv (env : Env) (g : Global) (point : Nat) (file func : Str)
    (line priority : Int) (rendered : Option Str) (hinv : registry_inv g) :
    registry_inv (trace_at_ env g point file func line priority rendered) := by
  obtain ⟨hnd, hiff⟩ := update_point_inv env g point (basename file) func line priority hinv
  have hhead : (trace_at_ env g point file func line priority rendered).trace_point_head
      = (update_point env g point (basename file) func line priority).trace_point_head := by
    rw [trace_at_head, update_point_head]
  have hup := update_point_state_nonneg env g point (basename file) func line priority
  have hat := trace_at_state_nonneg env g point file func line priority rendered
  refine ⟨by rw [hhead]; exact hnd, ?_⟩
  intro q
  rw [hhead]
  by_cases hq : q = point
  · subst hq
    constructor
    · intro _ hc
      rw [hc] at hat; exact absurd hat (by decide)
    · intro _
      exact (hiff q).mpr (fun hc => by rw [hc] at hup; exact absurd hup (by decide))
  · rw [trace_at_state_other env g point q file func line priority rendered hq,
      ← update_point_state_other env g point q (basename file) func line priority hq]
    exact hiff q

theorem trace_load_inv (env : Env) (w : World) (g g1 : Global)
    (h : trace_load env w g = some g1) (hinv : registry_inv g) : registry_inv g1 := by
  obtain ⟨hnd, hiff⟩ := hinv
  obtain ⟨hh, hs⟩ := trace_load_some env w g g1 h
  refine ⟨by rw [hh]; exact hnd, ?_⟩
  intro q
  rw [hh, hs]
  by_cases hq : q ∈ g.trace_point_head
  · rw [if_pos hq]
    exact ⟨fun _ => by decide, fun _ => hq⟩
  · rw [if_neg hq]
    exact hiff q

theorem apply_inv (env : Env) (c : Call) (g g1 : Global) (h : c.apply env g = some g1)
    (hinv : registry_inv g) : registry_inv g1 := by
  cases c with
  | state_at point file func line =>
    simp only [Call.apply, Option.some.injEq] at h
    subst h
    exact update_point_inv env g point (basename file) func line LOG_DEBUG hinv
  | trace point file func line priority rendered =>
    simp only [Call.apply, Option.some.injEq] at h
    subst h
    exact trace_at_inv env g point file func line priority rendered hinv
  | load w => exact trace_load_inv env w g g1 h hinv

theorem apply_head_subset (env : Env) (c : Call) (g g1 : Global)
    (h : c.apply env g = some g1) :
    ∀ point ∈ g.trace_point_head, point ∈ g1.trace_point_head := by
  intro q hq
  cases c with
  | state_at point file func line =>
    simp only [Call.apply, Option.some.injEq] at h
    subst h
    unfold trace_state_at_
    rw [update_point_head]
    split
    · exact List.mem_cons_of_mem _ hq
    · exact hq
  | trace point file func line priority rendered =>
    simp only [Call.apply, Option.some.injEq] at h
    subst h
    rw [trace_at_head]
    split
    · exact List.mem_cons_of_mem _ hq
    · exact hq
  | load w =>
    rw [(trace_load_some env w g g1 h).1]
    exact hq

theorem run_inv (env : Env) (calls : List Call) :
    ∀ g g1 : Global, run env calls g = some g1 → registry_inv g → registry_inv g1 := by
  induction calls with
  | nil =>
    intro g g1 h hinv
    simp only [run, Option.some.injEq] at h
    subst h
    exact hinv
  | cons c cs ih =>
    intro g g1 h hinv
    unfold run at h
    cases hc : c.apply env g with
    | none => rw [hc] at h; cases h
    | some g2 =>
      rw [hc] at h
      exact ih g2 g1 h (apply_inv env c g g2 hc hinv)

theorem run_head_subset (env : Env) (calls : List Call) :
    ∀ g g1 : Global, run env calls g = some g1 →
      ∀ point ∈ g.trace_point_head, point ∈ g1.trace_point_head := by
  induction calls with
  | nil =>
    intro g g1 h
    simp only [run, Option.some.injEq] at h
    subst h
    exact fun _ hq => hq
  | cons c cs ih =>
    intro g g1 h q hq
    unfold run at h
    cases hc : c.apply env g with
    | none => rw [hc] at h; cases h
    | some g2 =>
      rw [hc] at h
      exact ih g2 g1 h q (apply_head_subset env c g g2 hc q hq)

/-- Claim C9 (registry invariant): in a state reached from a state with an
empty registry and every trace point in state INIT by calls of
`trace_state_at_`, `trace_at_` and `trace_load`, the registry holds no trace
point twice, holds a trace point if and only if its state is not INIT, and
every trace point it holds is still in the registry after any further calls. -/
theorem registry_invariant (env : Env) (g0 g : Global) (calls : List Call)
    (hhead : g0.trace_point_head = []) (hstate : ∀ point, g0.state point = STATE_INIT)
    (hrun : run env calls g0 = some g) :
    g.trace_point_head.Nodup
    ∧ (∀ point, point ∈ g.trace_point_head ↔ g.state point ≠ STATE_INIT)
    ∧ ∀ (more : List Call) (g1 : Global), run env more g = some g1 →
        ∀ point ∈ g.trace_point_head, point ∈ g1.trace_point_head := by
  have h0 : registry_inv g0 := by
    refine ⟨by rw [hhead]; exact List.nodup_nil, ?_⟩
    intro q
    rw [hhead, hstate q]
    simp
  obtain ⟨hnd, hiff⟩ := run_inv env calls g0 g hrun h0
  exact ⟨hnd, hiff, fun more g1 h => run_head_subset env more g g1 h⟩

/-- Witness of C9: from the initial state, a query on the trace point 0, a
warning on the trace point 1, a reload and a debug emit on the trace point 0. -/
theorem registry_invariant_witness :
    Global.initial.trace_point_head = []
    ∧ (∀ point, Global.initial.state point = STATE_INIT)
    ∧ ∃ g,
        run sample_env
          [Call.state_at 0 ['m', 'a', 'i', 'n', '.', 'c'] ['r', 'u', 'n'] 12,
           Call.trace 1 ['f', 'o', 'o', '.', 'c'] ['h', 'e', 'l', 'l', 'o'] 7 LOG_WARNING none,
           Call.load (sample_world sample_conf),
           Call.trace 0 ['m', 'a', 'i', 'n', '.', 'c'] ['r', 'u', 'n'] 12 LOG_DEBUG none]
          Global.initial = some g
        ∧ g.trace_point_head.Nodup
        ∧ (∀ point, point ∈ g.trace_point_head ↔ g.state point ≠ STATE_INIT) :=
  ⟨rfl, fun _ => rfl, by
    obtain ⟨g, h⟩ := Option.isSome_iff_exists.mp
      (show (run sample_env
          [Call.state_at 0 ['m', 'a', 'i', 'n', '.', 'c'] ['r', 'u', 'n'] 12,
           Call.trace 1 ['f', 'o', 'o', '.', 'c'] ['h', 'e', 'l', 'l', 'o'] 7 LOG_WARNING none,
           Call.load (sample_world sample_conf),
           Call.trace 0 ['m', 'a', 'i', 'n', '.', 'c'] ['r', 'u', 'n'] 12 LOG_DEBUG none]
          Global.initial).isSome = true by decide)
    obtain ⟨a1, a2, _⟩ :=
      registry_invariant sample_env Global.initial g _ rfl (fun _ => rfl) h
    exact ⟨g, h, a1, a2⟩⟩

/-- Claim C10 (a load that opens the file replaces the rules): `load_conf`
returns when no line of the file is a lone sign, and when it returns the
rule list is the list of the rules of the rule lines of the file, in the
order of the lines, the same list whatever the store was before the load;
it is empty when the file has no rule line. -/
theorem load_conf_replaces_rules (env : Env) (w : World) (g : Global) (content : Str)
    (hopen : w.fopen_r (conf_file_name w) = Except.ok content) :
    (load_faults w = false → ∃ g1, load_conf env w g = some g1)
    ∧ ∀ g1, load_conf env w g = some g1 →
        g1.trace_conf_head = file_rules env content
        ∧ (∀ g2 g3 : Global, load_conf env w g2 = some g3 →
            g3.trace_conf_head = g1.trace_conf_head)
        ∧ ((∀ text ∈ getlines content, line_rule env text = none) →
            g1.trace_conf_head = []) := by
  refine ⟨load_conf_total env w g, ?_⟩
  intro g1 h
  have hr := load_conf_rules env w g g1 content hopen h
  refine ⟨hr, ?_, ?_⟩
  · intro g2 g3 h3
    rw [hr, load_conf_rules env w g2 g3 content hopen h3]
  · intro hnone
    rw [hr]
    unfold file_rules
    exact List.filterMap_eq_nil_iff.mpr hnone

/-- Witness of C10: the file `sample_conf` loaded over the rule `+ * *`. -/
theorem load_conf_replaces_rules_witness :
    (sample_world sample_conf).fopen_r (conf_file_name (sample_world sample_conf))
      = Except.ok sample_conf
    ∧ load_faults (sample_world sample_conf) = false
    ∧ ∃ g1,
        load_conf sample_env (sample_world sample_conf) (fresh [⟨true, ['*'], ['*']⟩]) = some g1
        ∧ g1.trace_conf_head
            = [⟨true, ['f', 'o', 'o', '.', 'c'], ['h', 'e', 'l', 'l', 'o']⟩,
               ⟨false, ['f', 'o', 'o', '.', 'c'], ['*']⟩] :=
  ⟨rfl, by decide, by
    obtain ⟨g1, h⟩ :=
      (load_conf_replaces_rules sample_env (sample_world sample_conf)
        (fresh [⟨true, ['*'], ['*']⟩]) sample_conf rfl).1 (by decide)
    exact ⟨g1, h,
      ((load_conf_replaces_rules sample_env (sample_world sample_conf)
        (fresh [⟨true, ['*'], ['*']⟩]) sample_conf rfl).2 g1 h).1.trans (by decide)⟩⟩

/-! ## The settings -/

theorem system_trace_settings (env : Env) (g : Global) (priority : Int) (msg : SysMsg) :
    (system_trace env g priority msg).settings = g.settings := by
  unfold system_trace; split <;> rfl

theorem add_conf_settings (env : Env) (g : Global) (enable : Bool)
    (file_pattern func_pattern : Str) :
    (add_conf env g enable file_pattern func_pattern).settings = g.settings := by
  have h := system_trace_settings env g LOG_DEBUG (SysMsg.conf enable file_pattern func_pattern)
  simp only [Global.settings, Settings.mk.injEq] at h
  simp only [add_conf, Global.settings, Settings.mk.injEq]
  exact h

/-- The assignments of `set_conf` for the key `file` in one expression. -/
theorem set_conf_file_eq (env : Env) (w : World) (g : Global) (value : Str) :
    set_conf env w g ['f', 'i', 'l', 'e'] value
      = match w.fopen_a value with
        | none =>
          system_trace env
            { g with closed := closed_after g, trace_file := some value, trace_fp := none }
            LOG_ERR (SysMsg.cannot_open_output value)
        | some fp =>
          { g with closed := closed_after g, trace_file := some value, trace_fp := some fp } := by
  unfold set_conf closed_after
  rw [if_pos rfl]
  cases hf : g.trace_file <;> cases hp : g.trace_fp <;> cases ho : w.fopen_a value <;> rfl

theorem set_conf_settings (env : Env) (w : World) (g : Global) (name value : Str) :
    (set_conf env w g name value).settings = apply_setting w.fopen_a g.settings (name, value) := by
  by_cases hf : name = ['f', 'i', 'l', 'e']
  · subst hf
    rw [set_conf_file_eq]
    unfold apply_setting
    rw [if_pos rfl]
    cases ho : w.fopen_a value with
    | none => simp only [system_trace_settings]; rfl
    | some fp => rfl
  · unfold set_conf apply_setting
    simp only [if_neg hf]
    split <;> rfl

/-- Claim C11 (open failure leaves the store): when the configuration file
does not open, `load_conf` returns and the rule list, the syslog flag, the
name of the output file and its stream are what they were, as are the
states, the registry and the closed streams. -/
theorem load_conf_open_failure (env : Env) (w : World) (g : Global) (errno : Int)
    (hfail : w.fopen_r (conf_file_name w) = Except.error errno) :
    ∃ g1, load_conf env w g = some g1
      ∧ g1.trace_conf_head = g.trace_conf_head
      ∧ g1.use_syslog = g.use_syslog
      ∧ g1.trace_file = g.trace_file
      ∧ g1.trace_fp = g.trace_fp
      ∧ g1.state = g.state
      ∧ g1.trace_point_head = g.trace_point_head
      ∧ g1.closed = g.closed := by
  unfold load_conf
  simp only [hfail]
  have key : ∀ (g0 : Global) (priority : Int) (msg : SysMsg),
      (system_trace env g0 priority msg).trace_conf_head = g0.trace_conf_head
      ∧ (system_trace env g0 priority msg).use_syslog = g0.use_syslog
      ∧ (system_trace env g0 priority msg).trace_file = g0.trace_file
      ∧ (system_trace env g0 priority msg).trace_fp = g0.trace_fp
      ∧ (system_trace env g0 priority msg).state = g0.state
      ∧ (system_trace env g0 priority msg).trace_point_head = g0.trace_point_head
      ∧ (system_trace env g0 priority msg).closed = g0.closed := by
    intro g0 priority msg
    unfold system_trace
    split <;> exact ⟨rfl, rfl, rfl, rfl, rfl, rfl, rfl⟩
  obtain ⟨a1, a2, a3, a4, a5, a6, a7⟩ := key g LOG_INFO (SysMsg.reading (conf_file_name w))
  by_cases he : errno ≠ ENOENT
  · rw [if_pos he]
    obtain ⟨b1, b2, b3, b4, b5, b6, b7⟩ :=
      key (system_trace env g LOG_INFO (SysMsg.reading (conf_file_name w))) LOG_WARNING
        (SysMsg.cannot_open_conf (conf_file_name w) errno)
    exact ⟨_, rfl, b1.trans a1, b2.trans a2, b3.trans a3, b4.trans a4, b5.trans a5,
      b6.trans a6, b7.trans a7⟩
  · rw [if_neg he]
    exact ⟨_, rfl, a1, a2, a3, a4, a5, a6, a7⟩

/-- Witness of C11: no file opens, the store has a rule and writes to the
stream 7 of the file `t`. -/
theorem load_conf_open_failure_witness :
    closed_world.fopen_r (conf_file_name closed_world) = Except.error ENOENT
    ∧ ∃ g1,
        load_conf sample_env closed_world
          { fresh [⟨true, ['*'], ['*']⟩] with
            use_syslog := false, trace_file := some ['t'], trace_fp := some 7 } = some g1
        ∧ g1.trace_conf_head = [⟨true, ['*'], ['*']⟩]
        ∧ g1.use_syslog = false
        ∧ g1.trace_file = some ['t']
        ∧ g1.trace_fp = some 7 :=
  ⟨rfl, by
    obtain ⟨g1, h, a1, a2, a3, a4, _⟩ :=
      load_conf_open_failure sample_env closed_world
        { fresh [⟨true, ['*'], ['*']⟩] with
          use_syslog := false, trace_file := some ['t'], trace_fp := some 7 } ENOENT rfl
    exact ⟨g1, h, a1, a2, a3, a4⟩⟩

theorem conf_line_settings (env : Env) (w : World) (conf_file : Str) (conf_line_no : Nat)
    (g g1 : Global) (text : Str)
    (h : conf_line env w conf_file conf_line_no g text = some g1) :
    g1.settings = (line_setting env text).toList.foldl (apply_setting w.fopen_a) g.settings := by
  unfold conf_line at h
  unfold line_setting
  by_cases h0 : text.length = 0
  · rw [if_pos h0] at h
    have : text = [] := List.length_eq_zero.mp h0
    subst this
    rw [tokenize_nil]
    cases h
    simp
  · rw [if_neg h0] at h
    generalize tokenize text = toks at h ⊢
    rcases toks with _ | ⟨t0, ts⟩
    · cases h; simp
    · simp only at h
      rcases sign_offset_cases t0 with hs | hs
      · rw [hs] at h
        simp only [List.drop_zero] at h
        by_cases hp : env.fnmatch t0 env.program_invocation_short_name ≠ 0
        · rw [if_pos hp] at h
          cases h
          rcases ts with _ | ⟨a, _ | ⟨b, _ | ⟨c, _ | ⟨d, rest⟩⟩⟩⟩ <;> simp [hp]
        · rw [if_neg hp] at h
          have hp0 : env.fnmatch t0 env.program_invocation_short_name = 0 := not_not.mp hp
          rcases ts with _ | ⟨a, _ | ⟨b, _ | ⟨c, _ | ⟨d, rest⟩⟩⟩⟩
          all_goals simp at h
          all_goals first
            | (subst h
               simp [system_trace_settings, add_conf_settings])
            | (split at h <;> cases h <;> rename_i he <;>
                 simp [system_trace_settings, set_conf_settings, hs, hp0, he])
      · rw [hs] at h
        rcases ts with _ | ⟨p, args⟩
        · simp at h
        · simp only [List.drop_succ_cons, List.drop_zero] at h
          by_cases hp : env.fnmatch p env.program_invocation_short_name ≠ 0
          · rw [if_pos hp] at h
            cases h
            rcases args with _ | ⟨a, _ | ⟨b, _ | ⟨c, rest⟩⟩⟩ <;> simp [hs]
          · rw [if_neg hp] at h
            rcases args with _ | ⟨a, _ | ⟨b, _ | ⟨c, rest⟩⟩⟩
            all_goals simp at h
            all_goals
              (subst h
               simp [system_trace_settings, add_conf_settings, hs])

theorem read_lines_settings (env : Env) (w : World) (conf_file : Str) (lines : List Str) :
    ∀ (conf_line_no : Nat) (g g1 : Global),
      read_lines env w conf_file conf_line_no g lines = some g1 →
      g1.settings
        = (lines.filterMap (line_setting env)).foldl (apply_setting w.fopen_a) g.settings := by
  induction lines with
  | nil =>
    intro no g g1 h
    simp only [read_lines, Option.some.injEq] at h
    subst h
    rfl
  | cons text rest ih =>
    intro no g g1 h
    unfold read_lines at h
    cases hl : conf_line env w conf_file no g text with
    | none => rw [hl] at h; cases h
    | some g2 =>
      rw [hl] at h
      simp only at h
      rw [ih (no + 1) g2 g1 h, conf_line_settings env w conf_file no g g2 text hl]
      cases hr : line_setting env text <;> simp [List.filterMap_cons, hr]

theorem read_lines_eq_none (env : Env) (w : World) (conf_file : Str) (lines : List Str)
    (hbad : lines.any lone_sign = true) :
    ∀ (conf_line_no : Nat) (g : Global),
      read_lines env w conf_file conf_line_no g lines = none := by
  induction lines with
  | nil => simp at hbad
  | cons text rest ih =>
    intro no g
    unfold read_lines
    cases hl : conf_line env w conf_file no g text with
    | none => rfl
    | some g2 =>
      simp only
      have hnot : lone_sign text ≠ true := fun hc =>
        absurd ((conf_line_eq_none_iff env w conf_file no g text).mpr hc) (by rw [hl]; simp)
      simp only [List.any_cons, Bool.or_eq_true] at hbad
      rcases hbad with hb | hb
      · exact absurd hb hnot
      · exact ih hb (no + 1) g2

/-- A load returns exactly when it does not run into a lone sign. -/
theorem load_conf_isSome (env : Env) (w : World) (g : Global) :
    (load_conf env w g).isSome = !load_faults w := by
  cases hf : load_faults w with
  | false =>
    obtain ⟨g1, h⟩ := load_conf_total env w g hf
    rw [h]; rfl
  | true =>
    unfold load_faults at hf
    unfold load_conf
    simp only
    split
    · rename_i errno hopen
      rw [hopen] at hf
      cases hf
    · rename_i content hopen
      rw [hopen] at hf
      rw [read_lines_eq_none env w _ _ hf]
      rfl

/-- A load that returns, of a file that opens, applies the settings of the
file to the settings in force. -/
theorem load_conf_settings (env : Env) (w : World) (g g1 : Global) (content : Str)
    (hopen : w.fopen_r (conf_file_name w) = Except.ok content)
    (h : load_conf env w g = some g1) :
    g1.settings = (file_settings env content).foldl (apply_setting w.fopen_a) g.settings := by
  unfold load_conf at h
  simp only [hopen] at h
  rw [read_lines_settings env w _ _ _ _ _ h]
  have hs := system_trace_settings env g LOG_INFO (SysMsg.reading (conf_file_name w))
  simp only [Global.settings, Settings.mk.injEq] at hs
  simp only [file_settings, Global.settings, hs]

theorem foldl_apply_setting_use_syslog (fopen_a : Str → Option Nat)
    (settings : List (Str × Str))
    (hno : ∀ setting ∈ settings, setting.1 ≠ ['s', 'y', 's', 'l', 'o', 'g']) :
    ∀ s : Settings, (settings.foldl (apply_setting fopen_a) s).use_syslog = s.use_syslog := by
  induction settings with
  | nil => intro s; rfl
  | cons a rest ih =>
    intro s
    rw [List.foldl_cons, ih (fun x hx => hno x (List.mem_cons_of_mem a hx))]
    have ha := hno a (List.mem_cons_self a rest)
    unfold apply_setting
    split
    · rfl
    · simp only [if_neg ha]

theorem foldl_apply_setting_file (fopen_a : Str → Option Nat)
    (settings : List (Str × Str))
    (hno : ∀ setting ∈ settings, setting.1 ≠ ['f', 'i', 'l', 'e']) :
    ∀ s : Settings, (settings.foldl (apply_setting fopen_a) s).trace_file = s.trace_file
      ∧ (settings.foldl (apply_setting fopen_a) s).trace_fp = s.trace_fp := by
  induction settings with
  | nil => intro s; exact ⟨rfl, rfl⟩
  | cons a rest ih =>
    intro s
    rw [List.foldl_cons]
    obtain ⟨h1, h2⟩ := ih (fun x hx => hno x (List.mem_cons_of_mem a hx)) (apply_setting fopen_a s a)
    have ha := hno a (List.mem_cons_self a rest)
    rw [h1, h2]
    unfold apply_setting
    rw [if_neg ha]
    split <;> exact ⟨rfl, rfl⟩

/-- Counterexample to C16: the empty file has no setting line; loaded over a
store that writes to the stream 7 of the file `t` without syslog it leaves
those settings, loaded over the initial store it leaves the initial
settings, so the settings after the load depend on the settings before it
and are not the default ones. -/
theorem load_conf_settings_counterexample :
    file_settings sample_env [] = []
    ∧ Option.map Global.settings
        (load_conf sample_env (sample_world [])
          { Global.initial with
            use_syslog := false, trace_file := some ['t'], trace_fp := some 7 })
      = some { use_syslog := false, trace_file := some ['t'], trace_fp := some 7 }
    ∧ Option.map Global.settings (load_conf sample_env (sample_world []) Global.initial)
      = some { use_syslog := true, trace_file := none, trace_fp := none } := by
  decide

/-- Claim C16 as amended (a load updates the settings): `load_conf` returns
when no line of the file is a lone sign, and when it returns after it
opened the file, the settings are the settings in force before the load
with the settings of the setting lines of the file applied in the order of
the lines; the syslog flag is as before when no setting line has the key
`syslog`, the output file and its stream are as before when no setting line
has the key `file`. -/
theorem load_conf_updates_settings (env : Env) (w : World) (g : Global) (content : Str)
    (hopen : w.fopen_r (conf_file_name w) = Except.ok content) :
    (load_faults w = false → ∃ g1, load_conf env w g = some g1)
    ∧ ∀ g1, load_conf env w g = some g1 →
        g1.settings = (file_settings env content).foldl (apply_setting w.fopen_a) g.settings
        ∧ ((∀ setting ∈ file_settings env content,
              setting.1 ≠ ['s', 'y', 's', 'l', 'o', 'g']) →
            g1.use_syslog = g.use_syslog)
        ∧ ((∀ setting ∈ file_settings env content, setting.1 ≠ ['f', 'i', 'l', 'e']) →
            g1.trace_file = g.trace_file ∧ g1.trace_fp = g.trace_fp) := by
  refine ⟨load_conf_total env w g, ?_⟩
  intro g1 h
  have hs := load_conf_settings env w g g1 content hopen h
  refine ⟨hs, ?_, ?_⟩
  · intro hno
    have := foldl_apply_setting_use_syslog w.fopen_a _ hno g.settings
    rw [← hs] at this
    exact this
  · intro hno
    have := foldl_apply_setting_file w.fopen_a _ hno g.settings
    rw [← hs] at this
    exact this

/-- Witness of C16: the file with the line `myapp syslog = no` loaded over a
store that writes to the stream 7 of the file `t`. -/
theorem load_conf_updates_settings_witness :
    (sample_world ['m', 'y', 'a', 'p', 'p', ' ', 's', 'y', 's', 'l', 'o', 'g', ' ', '=', ' ',
        'n', 'o', '\n']).fopen_r
      (conf_file_name (sample_world ['m', 'y', 'a', 'p', 'p', ' ', 's', 'y', 's', 'l', 'o',
        'g', ' ', '=', ' ', 'n', 'o', '\n']))
      = Except.ok ['m', 'y', 'a', 'p', 'p', ' ', 's', 'y', 's', 'l', 'o', 'g', ' ', '=', ' ',
          'n', 'o', '\n']
    ∧ ∃ g1,
        load_conf sample_env
          (sample_world ['m', 'y', 'a', 'p', 'p', ' ', 's', 'y', 's', 'l', 'o', 'g', ' ', '=',
            ' ', 'n', 'o', '\n'])
          { Global.initial with trace_file := some ['t'], trace_fp := some 7 } = some g1
        ∧ g1.settings = { use_syslog := false, trace_file := some ['t'], trace_fp := some 7 }
        ∧ g1.trace_file = some ['t'] ∧ g1.trace_fp = some 7 :=
  ⟨rfl, by
    obtain ⟨g1, h⟩ :=
      (load_conf_updates_settings sample_env
        (sample_world ['m', 'y', 'a', 'p', 'p', ' ', 's', 'y', 's', 'l', 'o', 'g', ' ', '=',
          ' ', 'n', 'o', '\n'])
        { Global.initial with trace_file := some ['t'], trace_fp := some 7 } _ rfl).1
        (by decide)
    obtain ⟨a1, _, a3⟩ :=
      (load_conf_updates_settings sample_env
        (sample_world ['m', 'y', 'a', 'p', 'p', ' ', 's', 'y', 's', 'l', 'o', 'g', ' ', '=',
          ' ', 'n', 'o', '\n'])
        { Global.initial with trace_file := some ['t'], trace_fp := some 7 } _ rfl).2 g1 h
    exact ⟨g1, h, a1.trans (by decide), a3 (by decide)⟩⟩

/-! ## Lines for other programs -/

theorem program_token_drop (text program : Str) (hprog : program_token text = some program) :
    ∃ token0 tokens args, tokenize text = token0 :: tokens
      ∧ (token0 :: tokens).drop (sign_offset token0) = program :: args := by
  unfold program_token at hprog
  cases ht : tokenize text with
  | nil => rw [ht] at hprog; cases hprog
  | cons token0 tokens =>
    rw [ht] at hprog
    simp only at hprog
    cases hd : (token0 :: tokens).drop (sign_offset token0) with
    | nil => rw [hd] at hprog; cases hprog
    | cons p args =>
      rw [hd] at hprog
      simp only [List.head?_cons, Option.some.injEq] at hprog
      exact ⟨token0, tokens, args, rfl, by rw [hd, hprog]⟩

theorem conf_line_other_program (env : Env) (w : World) (conf_file : Str) (conf_line_no : Nat)
    (g : Global) (text program : Str) (hprog : program_token text = some program)
    (hno : env.fnmatch program env.program_invocation_short_name ≠ 0) :
    conf_line env w conf_file conf_line_no g text = some g := by
  obtain ⟨token0, tokens, args, ht, hd⟩ := program_token_drop text program hprog
  unfold conf_line
  split
  · rfl
  · rw [ht]
    simp only
    rw [hd]
    simp only [if_pos hno]

theorem line_rule_other_program (env : Env) (text program : Str)
    (hprog : program_token text = some program)
    (hno : env.fnmatch program env.program_invocation_short_name ≠ 0) :
    line_rule env text = none := by
  obtain ⟨token0, tokens, args, ht, hd⟩ := program_token_drop text program hprog
  unfold line_rule
  rw [ht]
  simp only
  rw [hd]
  simp only [if_pos hno]

theorem line_setting_other_program (env : Env) (text program : Str)
    (hprog : program_token text = some program)
    (hno : env.fnmatch program env.program_invocation_short_name ≠ 0) :
    line_setting env text = none := by
  obtain ⟨token0, tokens, args, ht, hd⟩ := program_token_drop text program hprog
  unfold line_setting
  rw [ht]
  split
  · rename_i p name eq value heq
    simp only [List.cons.injEq] at heq
    obtain ⟨h0, _⟩ := heq
    subst h0
    by_cases hs : sign_offset token0 = 0
    · rw [hs, List.drop_zero] at hd
      simp only [List.cons.injEq] at hd
      rw [hd.1]
      simp [hno]
    · simp [hs]
  · rfl

theorem lone_sign_other_program (text program : Str)
    (hprog : program_token text = some program) : lone_sign text = false := by
  obtain ⟨token0, tokens, args, ht, hd⟩ := program_token_drop text program hprog
  unfold lone_sign
  rw [ht]
  split
  · rename_i t heq
    simp only [List.cons.injEq] at heq
    obtain ⟨h0, h1⟩ := heq
    subst h0 h1
    rcases sign_offset_cases token0 with hs | hs
    · simp [hs]
    · rw [hs] at hd
      simp at hd
  · rfl

/-- Claim C12 (program filtering) at the failing input: in a process of
`myapp`, the line `-sh * hello` has the three tokens `-sh`, `*` and `hello`,
none of them the sign `+` or `-`, and a program pattern `-sh` that does not
match `myapp`; the line appends the rule (off, `*`, `hello`) all the same,
because the test of the sign looks at the first character of the first
token only, and the whole token is then skipped and `*` taken for the
program pattern. -/
theorem program_filter_failing_input :
    tokenize ['-', 's', 'h', ' ', '*', ' ', 'h', 'e', 'l', 'l', 'o', '\n']
      = [['-', 's', 'h'], ['*'], ['h', 'e', 'l', 'l', 'o']]
    ∧ sample_env.fnmatch ['-', 's', 'h'] sample_env.program_invocation_short_name ≠ 0
    ∧ Option.map Global.trace_conf_head
        (conf_line sample_env (sample_world []) ['c'] 1 Global.initial
          ['-', 's', 'h', ' ', '*', ' ', 'h', 'e', 'l', 'l', 'o', '\n'])
      = some [⟨false, ['*'], ['h', 'e', 'l', 'l', 'o']⟩] := by
  decide

/-- Where the program filter does work: a line whose program token, namely
the token that `load_conf` hands to `fnmatch` (the second token when the
first token begins with `+` or `-`, the first token otherwise), does not
match the name of the running program is processed without any change of
the global state; and the load of a file
with such a line returns exactly when the load of the file without the line
does, with the same rule list, the same settings, the same states and the
same registry, so with the same answer of `is_trace_on` for every trace
point. -/
theorem other_program_line_ignored (env : Env) (text program : Str)
    (hprog : program_token text = some program)
    (hno : env.fnmatch program env.program_invocation_short_name ≠ 0) :
    (∀ (w : World) (conf_file : Str) (conf_line_no : Nat) (g : Global),
      conf_line env w conf_file conf_line_no g text = some g)
    ∧ ∀ (w1 w2 : World) (content1 content2 : Str) (before after : List Str) (g : Global),
        w1.fopen_r (conf_file_name w1) = Except.ok content1 →
        w2.fopen_r (conf_file_name w2) = Except.ok content2 →
        w1.fopen_a = w2.fopen_a →
        getlines content1 = before ++ text :: after →
        getlines content2 = before ++ after →
        (load_conf env w1 g).isSome = (load_conf env w2 g).isSome
        ∧ ∀ g1 g2 : Global, load_conf env w1 g = some g1 → load_conf env w2 g = some g2 →
            g1.trace_conf_head = g2.trace_conf_head
            ∧ g1.settings = g2.settings
            ∧ g1.state = g2.state
            ∧ g1.trace_point_head = g2.trace_point_head
            ∧ ∀ (file func : Str) (line : Int),
                is_trace_on env g1 file func line = is_trace_on env g2 file func line := by
  refine ⟨fun w conf_file conf_line_no g =>
    conf_line_other_program env w conf_file conf_line_no g text program hprog hno, ?_⟩
  intro w1 w2 content1 content2 before after g ho1 ho2 hfa hl1 hl2
  have hrule := line_rule_other_program env text program hprog hno
  have hset := line_setting_other_program env text program hprog hno
  have hlone := lone_sign_other_program text program hprog
  have hrules : file_rules env content1 = file_rules env content2 := by
    unfold file_rules
    rw [hl1, hl2]
    simp [List.filterMap_append, List.filterMap_cons, hrule]
  have hsets : file_settings env content1 = file_settings env content2 := by
    unfold file_settings
    rw [hl1, hl2]
    simp [List.filterMap_append, List.filterMap_cons, hset]
  have hfaults : load_faults w1 = load_faults w2 := by
    unfold load_faults
    rw [ho1, ho2]
    simp only [hl1, hl2, List.any_append, List.any_cons, hlone, Bool.false_or]
  refine ⟨by rw [load_conf_isSome, load_conf_isSome, hfaults], ?_⟩
  intro g1 g2 h1 h2
  have hc : g1.trace_conf_head = g2.trace_conf_head := by
    rw [load_conf_rules env w1 g g1 content1 ho1 h1,
      load_conf_rules env w2 g g2 content2 ho2 h2, hrules]
  obtain ⟨a1, a2⟩ := load_conf_points env w1 g g1 h1
  obtain ⟨b1, b2⟩ := load_conf_points env w2 g g2 h2
  refine ⟨hc, ?_, a1.trans b1.symm, a2.trans b2.symm, ?_⟩
  · rw [load_conf_settings env w1 g g1 content1 ho1 h1,
      load_conf_settings env w2 g g2 content2 ho2 h2, hsets, hfa]
  · intro file func line
    exact is_trace_on_congr env g2 g1 file func line line hc

/-- The line `+ other * *` in a process of `myapp` is ignored. -/
theorem other_program_line_ignored_witness :
    program_token ['+', ' ', 'o', 't', 'h', 'e', 'r', ' ', '*', ' ', '*', '\n']
      = some ['o', 't', 'h', 'e', 'r']
    ∧ sample_env.fnmatch ['o', 't', 'h', 'e', 'r'] sample_env.program_invocation_short_name ≠ 0
    ∧ conf_line sample_env (sample_world []) ['c'] 1 Global.initial
        ['+', ' ', 'o', 't', 'h', 'e', 'r', ' ', '*', ' ', '*', '\n'] = some Global.initial :=
  ⟨by decide, by decide,
   (other_program_line_ignored sample_env
      ['+', ' ', 'o', 't', 'h', 'e', 'r', ' ', '*', ' ', '*', '\n'] ['o', 't', 'h', 'e', 'r']
      (by decide) (by decide)).1 (sample_world []) ['c'] 1 Global.initial⟩

/-! ## Rule lines -/

theorem sign_on_of_offset_zero (t : Str) (h : sign_offset t = 0) : sign_on t = true := by
  unfold sign_offset at h
  unfold sign_on
  split at h
  · cases h
  · rename_i hn; rw [if_neg hn]

theorem text_length_of_tokenize (text : Str) (h : tokenize text ≠ []) : ¬ text.length = 0 := by
  intro h0
  have : text = [] := List.length_eq_zero.mp h0
  subst this
  exact h tokenize_nil

/-- Claim C13 (two-argument shorthand) at the failing input: in a process
with the name `-sh`, the line `-sh hello` has the two tokens `-sh` and
`hello`, no sign and a program pattern that matches the running program,
and it appends no rule, because its first token is taken for the sign and
`hello` for the program pattern; the line `-sh * hello`, which is to append
the same rule (on, `*`, `hello`), appends the rule (off, `*`, `hello`). -/
theorem two_argument_shorthand_failing_input :
    tokenize ['-', 's', 'h', ' ', 'h', 'e', 'l', 'l', 'o', '\n']
      = [['-', 's', 'h'], ['h', 'e', 'l', 'l', 'o']]
    ∧ tokenize ['-', 's', 'h', ' ', '*', ' ', 'h', 'e', 'l', 'l', 'o', '\n']
      = [['-', 's', 'h'], ['*'], ['h', 'e', 'l', 'l', 'o']]
    ∧ login_env.fnmatch ['-', 's', 'h'] login_env.program_invocation_short_name = 0
    ∧ Option.map Global.trace_conf_head
        (conf_line login_env (sample_world []) ['c'] 1 Global.initial
          ['-', 's', 'h', ' ', 'h', 'e', 'l', 'l', 'o', '\n'])
      = some []
    ∧ Option.map Global.trace_conf_head
        (conf_line login_env (sample_world []) ['c'] 1 Global.initial
          ['-', 's', 'h', ' ', '*', ' ', 'h', 'e', 'l', 'l', 'o', '\n'])
      = some [⟨false, ['*'], ['h', 'e', 'l', 'l', 'o']⟩] := by
  decide

/-- Where the two-argument shorthand does work: a line whose tokens are
an optional sign token `+` or `-`, a program pattern that matches the
running program and a function pattern, where a program pattern without a
sign before it does not begin with `+` or `-`, appends exactly one rule,
with the file pattern `*`, the function pattern of the line and the flag
off for the sign `-` and on otherwise; the line with the same sign, the
same program pattern, the file pattern `*` and the same function pattern
leaves the same global state. -/
theorem two_argument_shorthand (env : Env) (w : World) (conf_file : Str)
    (conf_line_no conf_line_no3 : Nat) (g : Global) (text text3 program func : Str)
    (sign : List Str)
    (hsign : (sign = [] ∧ sign_offset program = 0) ∨ sign = [['+']] ∨ sign = [['-']])
    (htext : tokenize text = sign ++ [program, func])
    (htext3 : tokenize text3 = sign ++ [program, ['*'], func])
    (hmatch : env.fnmatch program env.program_invocation_short_name = 0) :
    conf_line env w conf_file conf_line_no g text
      = some (add_conf env g (if sign = [['-']] then false else true) ['*'] func)
    ∧ (add_conf env g (if sign = [['-']] then false else true) ['*'] func).trace_conf_head
      = g.trace_conf_head
          ++ [{ enable := if sign = [['-']] then false else true, file_pattern := ['*'],
                func_pattern := func }]
    ∧ conf_line env w conf_file conf_line_no3 g text3
      = conf_line env w conf_file conf_line_no g text := by
  have hl : ¬ text.length = 0 := text_length_of_tokenize text (by rw [htext]; simp)
  have hl3 : ¬ text3.length = 0 := text_length_of_tokenize text3 (by rw [htext3]; simp)
  have hnm : ¬ env.fnmatch program env.program_invocation_short_name ≠ 0 := not_not.mpr hmatch
  have h2 : conf_line env w conf_file conf_line_no g text
      = some (add_conf env g (if sign = [['-']] then false else true) ['*'] func) := by
    unfold conf_line
    rw [if_neg hl, htext]
    rcases hsign with ⟨hs, ho⟩ | hs | hs
    · subst hs
      simp [ho, hnm, sign_on_of_offset_zero program ho]
    · subst hs
      simp [sign_offset, sign_on, hnm]
    · subst hs
      simp [sign_offset, sign_on, hnm]
  have h3 : conf_line env w conf_file conf_line_no3 g text3
      = some (add_conf env g (if sign = [['-']] then false else true) ['*'] func) := by
    unfold conf_line
    rw [if_neg hl3, htext3]
    rcases hsign with ⟨hs, ho⟩ | hs | hs
    · subst hs
      simp [ho, hnm, sign_on_of_offset_zero program ho]
    · subst hs
      simp [sign_offset, sign_on, hnm]
    · subst hs
      simp [sign_offset, sign_on, hnm]
  exact ⟨h2, add_conf_conf env g _ ['*'] func, h3.trans h2.symm⟩


/-- The lines `- myapp hello` and `- myapp * hello` append the same rule. -/
theorem two_argument_shorthand_witness :
    (([['-']] : List Str) = [] ∧ sign_offset ['m', 'y', 'a', 'p', 'p'] = 0
      ∨ ([['-']] : List Str) = [['+']] ∨ ([['-']] : List Str) = [['-']])
    ∧ tokenize ['-', ' ', 'm', 'y', 'a', 'p', 'p', ' ', 'h', 'e', 'l', 'l', 'o', '\n']
        = [['-']] ++ [['m', 'y', 'a', 'p', 'p'], ['h', 'e', 'l', 'l', 'o']]
    ∧ tokenize ['-', ' ', 'm', 'y', 'a', 'p', 'p', ' ', '*', ' ', 'h', 'e', 'l', 'l', 'o', '\n']
        = [['-']] ++ [['m', 'y', 'a', 'p', 'p'], ['*'], ['h', 'e', 'l', 'l', 'o']]
    ∧ sample_env.fnmatch ['m', 'y', 'a', 'p', 'p'] sample_env.program_invocation_short_name = 0
    ∧ (conf_line sample_env (sample_world []) ['c'] 1 Global.initial
          ['-', ' ', 'm', 'y', 'a', 'p', 'p', ' ', 'h', 'e', 'l', 'l', 'o', '\n']
        = some (add_conf sample_env Global.initial
            (if ([['-']] : List Str) = [['-']] then false else true) ['*']
            ['h', 'e', 'l', 'l', 'o'])
      ∧ (add_conf sample_env Global.initial
            (if ([['-']] : List Str) = [['-']] then false else true) ['*']
            ['h', 'e', 'l', 'l', 'o']).trace_conf_head
        = Global.initial.trace_conf_head
            ++ [{ enable := if ([['-']] : List Str) = [['-']] then false else true,
                  file_pattern := ['*'], func_pattern := ['h', 'e', 'l', 'l', 'o'] }]
      ∧ conf_line sample_env (sample_world []) ['c'] 2 Global.initial
          ['-', ' ', 'm', 'y', 'a', 'p', 'p', ' ', '*', ' ', 'h', 'e', 'l', 'l', 'o', '\n']
        = conf_line sample_env (sample_world []) ['c'] 1 Global.initial
          ['-', ' ', 'm', 'y', 'a', 'p', 'p', ' ', 'h', 'e', 'l', 'l', 'o', '\n']) :=
  ⟨Or.inr (Or.inr rfl), by decide, by decide, by decide,
   two_argument_shorthand sample_env (sample_world []) ['c'] 1 2 Global.initial
     ['-', ' ', 'm', 'y', 'a', 'p', 'p', ' ', 'h', 'e', 'l', 'l', 'o', '\n']
     ['-', ' ', 'm', 'y', 'a', 'p', 'p', ' ', '*', ' ', 'h', 'e', 'l', 'l', 'o', '\n']
     ['m', 'y', 'a', 'p', 'p'] ['h', 'e', 'l', 'l', 'o'] [['-']]
     (Or.inr (Or.inr rfl)) (by decide) (by decide) (by decide)⟩

/-- Claim C15 at the failing input: for a line that is the sign `-` alone
the body of the loop hands the `NULL` of `token_vector[1]` to `fnmatch`,
whatever the program, the files and the store are, and so does the load of
the file of that one line. -/
theorem lone_sign_line_faults (env : Env) (w : World) (conf_file : Str) (conf_line_no : Nat)
    (g : Global) :
    conf_line env w conf_file conf_line_no g ['-', '\n'] = none
    ∧ load_conf env (sample_world ['-', '\n']) g = none := by
  refine ⟨(conf_line_eq_none_iff env w conf_file conf_line_no g ['-', '\n']).mpr (by decide), ?_⟩
  have h := load_conf_isSome env (sample_world ['-', '\n']) g
  have hf : load_faults (sample_world ['-', '\n']) = true := by decide
  rw [hf] at h
  cases hl : load_conf env (sample_world ['-', '\n']) g with
  | none => rfl
  | some g1 => rw [hl] at h; cases h

/-! ## The scenario of `myapp` -/

theorem getlines_sample_conf :
    getlines sample_conf
      = [['+', ' ', 'm', 'y', 'a', 'p', 'p', ' ', 'f', 'o', 'o', '.', 'c', ':',
          'h', 'e', 'l', 'l', 'o', '\n'],
         ['-', ' ', 'm', 'y', 'a', 'p', 'p', ' ', 'f', 'o', 'o', '.', 'c', ':', '*', '\n']] := by
  decide

theorem tokenize_sample_line1 :
    tokenize ['+', ' ', 'm', 'y', 'a', 'p', 'p', ' ', 'f', 'o', 'o', '.', 'c', ':',
        'h', 'e', 'l', 'l', 'o', '\n']
      = [['+'], ['m', 'y', 'a', 'p', 'p'], ['f', 'o', 'o', '.', 'c'],
         ['h', 'e', 'l', 'l', 'o']] := by
  decide

theorem tokenize_sample_line2 :
    tokenize ['-', ' ', 'm', 'y', 'a', 'p', 'p', ' ', 'f', 'o', 'o', '.', 'c', ':', '*', '\n']
      = [['-'], ['m', 'y', 'a', 'p', 'p'], ['f', 'o', 'o', '.', 'c'], ['*']] := by
  decide

/-- The rules of `sample_conf` for a program that the pattern `myapp` matches. -/
theorem file_rules_sample_conf (env : Env)
    (hprog : env.fnmatch ['m', 'y', 'a', 'p', 'p'] env.program_invocation_short_name = 0) :
    file_rules env sample_conf
      = [⟨true, ['f', 'o', 'o', '.', 'c'], ['h', 'e', 'l', 'l', 'o']⟩,
         ⟨false, ['f', 'o', 'o', '.', 'c'], ['*']⟩] := by
  have h1 : line_rule env ['+', ' ', 'm', 'y', 'a', 'p', 'p', ' ', 'f', 'o', 'o', '.', 'c', ':',
        'h', 'e', 'l', 'l', 'o', '\n']
      = some ⟨true, ['f', 'o', 'o', '.', 'c'], ['h', 'e', 'l', 'l', 'o']⟩ := by
    unfold line_rule
    rw [tokenize_sample_line1]
    simp [sign_offset, sign_on, hprog]
  have h2 : line_rule env ['-', ' ', 'm', 'y', 'a', 'p', 'p', ' ', 'f', 'o', 'o', '.', 'c', ':',
        '*', '\n']
      = some ⟨false, ['f', 'o', 'o', '.', 'c'], ['*']⟩ := by
    unfold line_rule
    rw [tokenize_sample_line2]
    simp [sign_offset, sign_on, hprog]
  unfold file_rules
  rw [getlines_sample_conf]
  simp [List.filterMap_cons, h1, h2]

/-- Claim C14 (scenario): for the running program `myapp` and a matcher for
which `myapp` matches `myapp`, `foo.c` matches `foo.c` and `*` matches
`hello` and `world`, the load of the file with the lines
`+ myapp foo.c:hello` and `- myapp foo.c:*` returns with the rule list
[(on, foo.c, hello), (off, foo.c, *)], and the state query then leaves a
trace point in state INIT or REINIT at OFF, at `foo.c:hello` as well as at
`foo.c:world`. -/
theorem scenario_myapp (env : Env) (w : World) (g : Global)
    (hname : env.program_invocation_short_name = ['m', 'y', 'a', 'p', 'p'])
    (hprog : env.fnmatch ['m', 'y', 'a', 'p', 'p'] ['m', 'y', 'a', 'p', 'p'] = 0)
    (hfile : env.fnmatch ['f', 'o', 'o', '.', 'c'] ['f', 'o', 'o', '.', 'c'] = 0)
    (hhello : env.fnmatch ['*'] ['h', 'e', 'l', 'l', 'o'] = 0)
    (hworld : env.fnmatch ['*'] ['w', 'o', 'r', 'l', 'd'] = 0)
    (hopen : w.fopen_r (conf_file_name w) = Except.ok sample_conf) :
    ∃ g1, load_conf env w g = some g1
      ∧ g1.trace_conf_head
          = [⟨true, ['f', 'o', 'o', '.', 'c'], ['h', 'e', 'l', 'l', 'o']⟩,
             ⟨false, ['f', 'o', 'o', '.', 'c'], ['*']⟩]
      ∧ ∀ (point : Nat) (path : Str) (line : Int),
          basename path = ['f', 'o', 'o', '.', 'c'] →
          (g1.state point = STATE_INIT ∨ g1.state point = STATE_REINIT) →
          (trace_state_at_ env g1 point path ['h', 'e', 'l', 'l', 'o'] line).state point
            = STATE_OFF
          ∧ (trace_state_at_ env g1 point path ['w', 'o', 'r', 'l', 'd'] line).state point
            = STATE_OFF := by
  have hfaults : load_faults w = false := by
    unfold load_faults
    rw [hopen]
    decide
  obtain ⟨g1, h⟩ := load_conf_total env w g hfaults
  have hprog1 : env.fnmatch ['m', 'y', 'a', 'p', 'p'] env.program_invocation_short_name = 0 := by
    rw [hname]; exact hprog
  have hrules : g1.trace_conf_head
      = [⟨true, ['f', 'o', 'o', '.', 'c'], ['h', 'e', 'l', 'l', 'o']⟩,
         ⟨false, ['f', 'o', 'o', '.', 'c'], ['*']⟩] := by
    rw [load_conf_rules env w g g1 sample_conf hopen h, file_rules_sample_conf env hprog1]
  have hoff : ∀ (func : Str) (line : Int), env.fnmatch ['*'] func = 0 →
      is_trace_on env g1 ['f', 'o', 'o', '.', 'c'] func line = false := by
    intro func line hstar
    rw [is_trace_on_eq_foldl, hrules]
    exact foldl_match_step_last env ['f', 'o', 'o', '.', 'c'] func
      [⟨true, ['f', 'o', 'o', '.', 'c'], ['h', 'e', 'l', 'l', 'o']⟩]
      [] ⟨false, ['f', 'o', 'o', '.', 'c'], ['*']⟩
      (by simp [rule_matches, hfile, hstar]) (by simp) false
  refine ⟨g1, h, hrules, ?_⟩
  intro point path line hpath hst
  have hneg := state_neg_of_init_or_reinit g1 point hst
  unfold trace_state_at_
  rw [hpath,
    update_point_state_of_neg env g1 point _ ['h', 'e', 'l', 'l', 'o'] line LOG_DEBUG hneg,
    update_point_state_of_neg env g1 point _ ['w', 'o', 'r', 'l', 'd'] line LOG_DEBUG hneg,
    hoff _ line hhello, hoff _ line hworld]
  exact ⟨by rw [if_neg (by decide)], by rw [if_neg (by decide)]⟩

/-- Witness of C14: the scenario with the sample matcher, loaded over the
initial store. -/
theorem scenario_myapp_witness :
    sample_env.program_invocation_short_name = ['m', 'y', 'a', 'p', 'p']
    ∧ sample_env.fnmatch ['m', 'y', 'a', 'p', 'p'] ['m', 'y', 'a', 'p', 'p'] = 0
    ∧ sample_env.fnmatch ['f', 'o', 'o', '.', 'c'] ['f', 'o', 'o', '.', 'c'] = 0
    ∧ sample_env.fnmatch ['*'] ['h', 'e', 'l', 'l', 'o'] = 0
    ∧ sample_env.fnmatch ['*'] ['w', 'o', 'r', 'l', 'd'] = 0
    ∧ (sample_world sample_conf).fopen_r (conf_file_name (sample_world sample_conf))
        = Except.ok sample_conf
    ∧ ∃ g1, load_conf sample_env (sample_world sample_conf) Global.initial = some g1
      ∧ g1.trace_conf_head
          = [⟨true, ['f', 'o', 'o', '.', 'c'], ['h', 'e', 'l', 'l', 'o']⟩,
             ⟨false, ['f', 'o', 'o', '.', 'c'], ['*']⟩]
      ∧ ∀ (point : Nat) (path : Str) (line : Int),
          basename path = ['f', 'o', 'o', '.', 'c'] →
          (g1.state point = STATE_INIT ∨ g1.state point = STATE_REINIT) →
          (trace_state_at_ sample_env g1 point path ['h', 'e', 'l', 'l', 'o'] line).state point
            = STATE_OFF
          ∧ (trace_state_at_ sample_env g1 point path ['w', 'o', 'r', 'l', 'd'] line).state
              point = STATE_OFF :=
  ⟨rfl, by decide, by decide, by decide, by decide, rfl,
   scenario_myapp sample_env (sample_world sample_conf) Global.initial rfl (by decide)
     (by decide) (by decide) (by decide) rfl⟩

/-! ## The output -/

theorem message_lines_cons_newline (i : Nat) (acc cs : Str) :
    message_lines i acc ('\n' :: cs)
      = (i, strip_cr acc.reverse)
          :: (if cs = [] then [] else message_lines (i + 1) [] cs) := by
  cases acc with
  | nil =>
    by_cases hcs : cs = []
    · simp [message_lines, strip_cr, hcs]
    · simp [message_lines, strip_cr, hcs]
  | cons c acc1 =>
    by_cases hc : c = '\r'
    · subst hc
      by_cases hcs : cs = []
      · simp [message_lines, strip_cr, hcs]
      · simp [message_lines, strip_cr, hcs]
    · by_cases hcs : cs = []
      · simp [message_lines, strip_cr, hcs, hc]
      · simp [message_lines, strip_cr, hcs, hc]

theorem message_lines_cons_other (i : Nat) (acc cs : Str) (c : Char) (hc : c ≠ '\n') :
    message_lines i acc (c :: cs) = message_lines i (c :: acc) cs := by
  simp [message_lines, hc]

theorem message_lines_no_newline (l : Str) (hl : '\n' ∉ l) :
    ∀ (i : Nat) (acc : Str), message_lines i acc l = [(i, acc.reverse ++ l)] := by
  induction l with
  | nil => intro i acc; simp [message_lines]
  | cons c cs ih =>
    intro i acc
    have hc : c ≠ '\n' := fun h => hl (h ▸ List.mem_cons_self c cs)
    have hcs : '\n' ∉ cs := fun h => hl (List.mem_cons_of_mem c h)
    rw [message_lines_cons_other i acc cs c hc, ih hcs]
    simp

theorem message_lines_newline (l rest : Str) (hl : '\n' ∉ l) :
    ∀ (i : Nat) (acc : Str),
      message_lines i acc (l ++ '\n' :: rest)
        = (i, strip_cr (acc.reverse ++ l))
            :: (if rest = [] then [] else message_lines (i + 1) [] rest) := by
  induction l with
  | nil =>
    intro i acc
    simp only [List.nil_append, List.append_nil]
    exact message_lines_cons_newline i acc rest
  | cons c cs ih =>
    intro i acc
    have hc : c ≠ '\n' := fun h => hl (h ▸ List.mem_cons_self c cs)
    have hcs : '\n' ∉ cs := fun h => hl (List.mem_cons_of_mem c h)
    rw [List.cons_append, message_lines_cons_other i acc _ c hc, ih hcs]
    simp

theorem message_calls_two_breaks (l1 l2 l3 : Str)
    (h1 : '\n' ∉ l1) (h2 : '\n' ∉ l2) (h3 : '\n' ∉ l3) :
    message_calls (some (l1 ++ '\n' :: (l2 ++ '\n' :: l3)))
      = if l3 = [] then [(some 1, some (strip_cr l1)), (some 2, some (strip_cr l2))]
        else [(some 1, some (strip_cr l1)), (some 2, some (strip_cr l2)), (some 3, some l3)] := by
  unfold message_calls
  simp only
  rw [if_pos (by simp)]
  rw [message_lines_newline l1 _ h1, if_neg (by simp), message_lines_newline l2 _ h2]
  by_cases he : l3 = []
  · simp [he]
  · rw [if_neg he, if_neg he, message_lines_no_newline l3 h3]
    simp

theorem trace_at_out (env : Env) (g : Global) (point : Nat) (file func : Str)
    (line priority : Int) (rendered : Option Str) :
    ∃ written : List Output,
      (trace_at_ env g point file func line priority rendered).out = g.out ++ written
      ∧ ∀ o ∈ written, o.dest = sink g := by
  by_cases h0 : (update_point env g point (basename file) func line priority).state point = 0
  · rw [trace_at_of_zero env g point file func line priority rendered h0]
    refine ⟨[], ?_, by simp⟩
    rw [(update_point_frame env g point (basename file) func line priority).2.2.2.2.2.2]
    simp
  · rw [trace_at_of_ne_zero env g point file func line priority rendered h0]
    refine ⟨_, rfl, ?_⟩
    intro o ho
    unfold write_message at ho
    obtain ⟨r, _, rfl⟩ := List.mem_map.mp ho
    rfl

/-- Counterexample to C19: the message `a`, line break, `b`, line break has
two line breaks, and an emit that is enabled writes two records for it, not
three. -/
theorem multi_line_payload_counterexample :
    List.count '\n' ['a', '\n', 'b', '\n'] = 2
    ∧ (trace_at_ sample_env Global.initial 0 ['m', 'a', 'i', 'n', '.', 'c'] ['r', 'u', 'n'] 12
        LOG_WARNING (some ['a', '\n', 'b', '\n'])).out
      = [Output.trace Dest.syslog LOG_WARNING
           ⟨none, ['m', 'a', 'i', 'n', '.', 'c'], 12, ['r', 'u', 'n'],
            ['W', 'a', 'r', 'n', 'i', 'n', 'g'], 42, 1⟩ (some 1) (some ['a']),
         Output.trace Dest.syslog LOG_WARNING
           ⟨none, ['m', 'a', 'i', 'n', '.', 'c'], 12, ['r', 'u', 'n'],
            ['W', 'a', 'r', 'n', 'i', 'n', 'g'], 42, 1⟩ (some 2) (some ['b'])] := by
  decide

/-- Claim C19 as amended (multi-line payload): for an emit that is enabled
and a rendered message that is shorter than the message buffer and has
exactly two line breaks, `trace_at_` writes three records when there is
text after the second line break, one per line in order, all to the same
destination with the same priority and the same header (file, line,
function, severity, pid and counter) and with the sub-line numbers 1, 2, 3;
it writes the first two of them only when the message ends with its second
line break.  A carriage return right before a line break is not part of the
line written.  Nothing is said of a message that does not fit the buffer. -/
theorem multi_line_payload (env : Env) (g : Global) (point : Nat) (file func : Str)
    (line priority : Int) (l1 l2 l3 : Str)
    (h1 : '\n' ∉ l1) (h2 : '\n' ∉ l2) (h3 : '\n' ∉ l3)
    (hfit : (l1 ++ '\n' :: (l2 ++ '\n' :: l3)).length < buffer_size g)
    (hon : (update_point env g point (basename file) func line priority).state point ≠ 0) :
    (trace_at_ env g point file func line priority
        (some (l1 ++ '\n' :: (l2 ++ '\n' :: l3)))).out
      = g.out ++
          (if l3 = [] then
            [Output.trace (sink g) priority
               (format_header env g (basename file) line func priority
                 ((update_point env g point (basename file) func line priority).state point))
               (some 1) (some (strip_cr l1)),
             Output.trace (sink g) priority
               (format_header env g (basename file) line func priority
                 ((update_point env g point (basename file) func line priority).state point))
               (some 2) (some (strip_cr l2))]
          else
            [Output.trace (sink g) priority
               (format_header env g (basename file) line func priority
                 ((update_point env g point (basename file) func line priority).state point))
               (some 1) (some (strip_cr l1)),
             Output.trace (sink g) priority
               (format_header env g (basename file) line func priority
                 ((update_point env g point (basename file) func line priority).state point))
               (some 2) (some (strip_cr l2)),
             Output.trace (sink g) priority
               (format_header env g (basename file) line func priority
                 ((update_point env g point (basename file) func line priority).state point))
               (some 3) (some l3)]) := by
  have hbuf : message_buf env g (some (l1 ++ '\n' :: (l2 ++ '\n' :: l3)))
      = some (l1 ++ '\n' :: (l2 ++ '\n' :: l3)) := by
    simp only [message_buf, if_pos hfit]
  rw [trace_at_of_ne_zero env g point file func line priority _ hon]
  simp only
  rw [hbuf]
  unfold write_message
  rw [message_calls_two_breaks l1 l2 l3 h1 h2 h3]
  by_cases he : l3 = []
  · simp [he]
  · simp [he]

/-- Witness of C19: a warning with the lines `a`, `b` and `c`. -/
theorem multi_line_payload_witness :
    '\n' ∉ ['a'] ∧ '\n' ∉ ['b'] ∧ '\n' ∉ ['c']
    ∧ (['a'] ++ '\n' :: (['b'] ++ '\n' :: ['c'])).length < buffer_size Global.initial
    ∧ (update_point sample_env Global.initial 0 (basename ['m', 'a', 'i', 'n', '.', 'c'])
        ['r', 'u', 'n'] 12 LOG_WARNING).state 0 ≠ 0
    ∧ (trace_at_ sample_env Global.initial 0 ['m', 'a', 'i', 'n', '.', 'c'] ['r', 'u', 'n'] 12
        LOG_WARNING (some (['a'] ++ '\n' :: (['b'] ++ '\n' :: ['c'])))).out
      = [Output.trace Dest.syslog LOG_WARNING
           ⟨none, ['m', 'a', 'i', 'n', '.', 'c'], 12, ['r', 'u', 'n'],
            ['W', 'a', 'r', 'n', 'i', 'n', 'g'], 42, 1⟩ (some 1) (some ['a']),
         Output.trace Dest.syslog LOG_WARNING
           ⟨none, ['m', 'a', 'i', 'n', '.', 'c'], 12, ['r', 'u', 'n'],
            ['W', 'a', 'r', 'n', 'i', 'n', 'g'], 42, 1⟩ (some 2) (some ['b']),
         Output.trace Dest.syslog LOG_WARNING
           ⟨none, ['m', 'a', 'i', 'n', '.', 'c'], 12, ['r', 'u', 'n'],
            ['W', 'a', 'r', 'n', 'i', 'n', 'g'], 42, 1⟩ (some 3) (some ['c'])] :=
  ⟨by decide, by decide, by decide, by decide, by decide,
   (multi_line_payload sample_env Global.initial 0 ['m', 'a', 'i', 'n', '.', 'c']
      ['r', 'u', 'n'] 12 LOG_WARNING ['a'] ['b'] ['c'] (by decide) (by decide) (by decide)
      (by decide) (by decide)).trans (by decide)⟩

/-! ## The output file -/

/-- Counterexample to C17: in the initial store, where syslog is in use, the
key `file` with a file that opens leaves the destination of `message` at
syslog, and the record of the next emit goes to syslog. -/
theorem sink_path_key_counterexample :
    (writable_world []).fopen_a ['t'] = some 3
    ∧ sink (set_conf sample_env (writable_world []) Global.initial ['f', 'i', 'l', 'e'] ['t'])
      = Dest.syslog
    ∧ (trace_at_ sample_env
        (set_conf sample_env (writable_world []) Global.initial ['f', 'i', 'l', 'e'] ['t'])
        0 ['m', 'a', 'i', 'n', '.', 'c'] ['r', 'u', 'n'] 12 LOG_WARNING none).out
      = [Output.trace Dest.syslog LOG_WARNING
           ⟨none, ['m', 'a', 'i', 'n', '.', 'c'], 12, ['r', 'u', 'n'],
            ['W', 'a', 'r', 'n', 'i', 'n', 'g'], 42, 1⟩ none none] := by
  decide

/-- Claim C17 as amended (the key `file`): after `set_conf` with the key
`file` and a file that opens for appending, the store has the name and the
stream of that file, the stream of a file that the store had a name and a
stream of is closed, nothing is written, and the syslog flag is as before:
the destination of `message`, and of every record that a following emit
writes, is the new stream when the flag is off and syslog when it is on. -/
theorem sink_path_key (env : Env) (w : World) (g : Global) (path : Str) (fp : Nat)
    (hopen : w.fopen_a path = some fp) :
    (set_conf env w g ['f', 'i', 'l', 'e'] path).trace_file = some path
    ∧ (set_conf env w g ['f', 'i', 'l', 'e'] path).trace_fp = some fp
    ∧ (set_conf env w g ['f', 'i', 'l', 'e'] path).use_syslog = g.use_syslog
    ∧ (set_conf env w g ['f', 'i', 'l', 'e'] path).out = g.out
    ∧ (∀ old, g.trace_fp = some old → g.trace_file ≠ none →
        (set_conf env w g ['f', 'i', 'l', 'e'] path).closed = g.closed ++ [old])
    ∧ sink (set_conf env w g ['f', 'i', 'l', 'e'] path)
        = (if g.use_syslog = true then Dest.syslog else Dest.file fp)
    ∧ ∀ (point : Nat) (file func : Str) (line priority : Int) (rendered : Option Str),
        ∃ written : List Output,
          (trace_at_ env (set_conf env w g ['f', 'i', 'l', 'e'] path) point file func line
              priority rendered).out
            = g.out ++ written
          ∧ ∀ o ∈ written,
              o.dest = (if g.use_syslog = true then Dest.syslog else Dest.file fp) := by
  have hsink : sink (set_conf env w g ['f', 'i', 'l', 'e'] path)
      = (if g.use_syslog = true then Dest.syslog else Dest.file fp) := by
    rw [set_conf_file_eq, hopen]
    simp only [sink]
  have hout : (set_conf env w g ['f', 'i', 'l', 'e'] path).out = g.out := by
    rw [set_conf_file_eq, hopen]
  refine ⟨by rw [set_conf_file_eq, hopen], by rw [set_conf_file_eq, hopen],
    by rw [set_conf_file_eq, hopen], hout, ?_, hsink, ?_⟩
  · intro old hfp hfile
    rw [set_conf_file_eq, hopen]
    simp only [closed_after]
    cases hf : g.trace_file with
    | none => exact absurd hf hfile
    | some name => simp [hfp]
  · intro point file func line priority rendered
    obtain ⟨written, h1, h2⟩ :=
      trace_at_out env (set_conf env w g ['f', 'i', 'l', 'e'] path) point file func line
        priority rendered
    rw [hout] at h1
    rw [hsink] at h2
    exact ⟨written, h1, h2⟩

/-- Witness of C17: the key `file` in a store that writes to the stream 7 of
the file `t` without syslog. -/
theorem sink_path_key_witness :
    (writable_world []).fopen_a ['n'] = some 3
    ∧ sink (set_conf sample_env (writable_world [])
        { Global.initial with use_syslog := false, trace_file := some ['t'],
                              trace_fp := some 7 }
        ['f', 'i', 'l', 'e'] ['n']) = Dest.file 3
    ∧ (set_conf sample_env (writable_world [])
        { Global.initial with use_syslog := false, trace_file := some ['t'],
                              trace_fp := some 7 }
        ['f', 'i', 'l', 'e'] ['n']).closed = [7] :=
  ⟨rfl,
   (sink_path_key sample_env (writable_world [])
      { Global.initial with use_syslog := false, trace_file := some ['t'],
                            trace_fp := some 7 }
      ['n'] 3 rfl).2.2.2.2.2.1.trans (by decide),
   ((sink_path_key sample_env (writable_world [])
      { Global.initial with use_syslog := false, trace_file := some ['t'],
                            trace_fp := some 7 }
      ['n'] 3 rfl).2.2.2.2.1 7 rfl (by decide)).trans (by decide)⟩

/-- Counterexample to C18: a store writes to the stream 7 of the file `t`
without syslog; the key `file` with a file that does not open closes the
stream 7 and leaves the destination of `message` at stderr, not at the
stream in use before. -/
theorem sink_open_failure_counterexample :
    closed_world.fopen_a ['n'] = none
    ∧ sink { Global.initial with use_syslog := false, trace_file := some ['t'],
                                 trace_fp := some 7 } = Dest.file 7
    ∧ sink (set_conf sample_env closed_world
        { Global.initial with use_syslog := false, trace_file := some ['t'],
                              trace_fp := some 7 }
        ['f', 'i', 'l', 'e'] ['n']) = Dest.stderr
    ∧ (set_conf sample_env closed_world
        { Global.initial with use_syslog := false, trace_file := some ['t'],
                              trace_fp := some 7 }
        ['f', 'i', 'l', 'e'] ['n']).closed = [7] := by
  decide

/-- Claim C18 as amended (the output file does not open): after `set_conf`
with the key `file` and a file that does not open, the store has the name
of that file and no stream, the stream in use before is closed, the failure
is written to the destination in effect afterwards, and that destination is
syslog when the syslog flag is on and stderr when it is off; it is the
destination in effect before the call exactly when the flag is on or the
store had no stream. -/
theorem sink_open_failure (env : Env) (w : World) (g : Global) (path : Str)
    (hfail : w.fopen_a path = none) :
    (set_conf env w g ['f', 'i', 'l', 'e'] path).trace_file = some path
    ∧ (set_conf env w g ['f', 'i', 'l', 'e'] path).trace_fp = none
    ∧ (set_conf env w g ['f', 'i', 'l', 'e'] path).use_syslog = g.use_syslog
    ∧ (set_conf env w g ['f', 'i', 'l', 'e'] path).closed = closed_after g
    ∧ sink (set_conf env w g ['f', 'i', 'l', 'e'] path)
        = (if g.use_syslog = true then Dest.syslog else Dest.stderr)
    ∧ (set_conf env w g ['f', 'i', 'l', 'e'] path).out
        = g.out ++ [Output.system (if g.use_syslog = true then Dest.syslog else Dest.stderr)
            LOG_ERR env.getpid (SysMsg.cannot_open_output path)]
    ∧ (sink (set_conf env w g ['f', 'i', 'l', 'e'] path) = sink g
        ↔ (g.use_syslog = true ∨ g.trace_fp = none)) := by
  have heq : set_conf env w g ['f', 'i', 'l', 'e'] path
      = { g with closed := closed_after g, trace_file := some path, trace_fp := none,
                 out := g.out ++ [Output.system
                   (if g.use_syslog = true then Dest.syslog else Dest.stderr)
                   LOG_ERR env.getpid (SysMsg.cannot_open_output path)] } := by
    rw [set_conf_file_eq, hfail]
    simp only [system_trace]
    rw [if_neg (by decide)]
    simp only [sink]
  rw [heq]
  refine ⟨rfl, rfl, rfl, rfl, by simp only [sink], rfl, ?_⟩
  simp only [sink]
  cases hs : g.use_syslog with
  | true => simp
  | false =>
    cases hp : g.trace_fp with
    | none => simp
    | some old => simp

/-- Witness of C18: the key `file` with a file that does not open, in the
initial store. -/
theorem sink_open_failure_witness :
    closed_world.fopen_a ['n'] = none
    ∧ sink (set_conf sample_env closed_world Global.initial ['f', 'i', 'l', 'e'] ['n'])
        = Dest.syslog
    ∧ (set_conf sample_env closed_world Global.initial ['f', 'i', 'l', 'e'] ['n']).trace_fp
        = none :=
  ⟨rfl,
   (sink_open_failure sample_env closed_world Global.initial ['n'] rfl).2.2.2.2.1.trans
     (by decide),
   (sink_open_failure sample_env closed_world Global.initial ['n'] rfl).2.1⟩

/-! ## Yea or nay -/

theorem char_toNat_ofNat (n : Nat) (h : n < 55296) : (Char.ofNat n).toNat = n := by
  unfold Char.ofNat
  have hv : n.isValidChar := Or.inl h
  rw [dif_pos hv]
  rfl

theorem char_toNat_injective (c d : Char) (h : c.toNat = d.toNat) : c = d := by
  rw [← Char.ofNat_toNat c, ← Char.ofNat_toNat d, h]

/-- For a character that is not an upper-case letter, the characters with
that lower-case form are the character and its upper-case form. -/
theorem toLower_eq_iff (c l : Char) (hl : l.toLower = l) :
    c.toLower = l ↔ c = l ∨ c = l.toUpper := by
  have hlo : ¬ (l.toNat ≥ 65 ∧ l.toNat ≤ 90) := by
    intro hr
    have h1 : l.toLower.toNat = l.toNat + 32 := by
      simp only [Char.toLower, if_pos hr]
      exact char_toNat_ofNat _ (by omega)
    rw [hl] at h1
    omega
  constructor
  · intro h
    by_cases hc : c.toNat ≥ 65 ∧ c.toNat ≤ 90
    · right
      have h1 : c.toLower.toNat = c.toNat + 32 := by
        simp only [Char.toLower, if_pos hc]
        exact char_toNat_ofNat _ (by omega)
      rw [h] at h1
      have hr : l.toNat ≥ 97 ∧ l.toNat ≤ 122 := by omega
      apply char_toNat_injective
      simp only [Char.toUpper, if_pos hr]
      rw [char_toNat_ofNat _ (by omega)]
      omega
    · left
      simp only [Char.toLower, if_neg hc] at h
      exact h
  · rintro (h | h)
    · rw [h]; exact hl
    · by_cases hr : l.toNat ≥ 97 ∧ l.toNat ≤ 122
      · have h1 : c.toNat = l.toNat - 32 := by
          rw [h]
          simp only [Char.toUpper, if_pos hr]
          exact char_toNat_ofNat _ (by omega)
        have hc : c.toNat ≥ 65 ∧ c.toNat ≤ 90 := by omega
        apply char_toNat_injective
        simp only [Char.toLower, if_pos hc]
        rw [char_toNat_ofNat _ (by omega)]
        omega
      · simp only [Char.toUpper, if_neg hr] at h
        rw [h]; exact hl

theorem same_letter_iff (c l : Char) (hl : l.toLower = l) :
    same_letter c l = true ↔ c.toLower = l := by
  rw [toLower_eq_iff c l hl]
  unfold same_letter
  rw [hl]
  simp only [Bool.or_eq_true, beq_iff_eq]
  tauto

theorem map_toLower_eq_iff (word : Str) (hw : ∀ l ∈ word, l.toLower = l) :
    ∀ value : Str, value.map Char.toLower = word ↔ equals_ignoring_case value word = true := by
  induction word with
  | nil =>
    intro value
    cases value with
    | nil => simp [equals_ignoring_case]
    | cons c cs => simp [equals_ignoring_case]
  | cons l ls ih =>
    intro value
    cases value with
    | nil => simp [equals_ignoring_case]
    | cons c cs =>
      have hl := hw l (List.mem_cons_self l ls)
      have hls : ∀ x ∈ ls, x.toLower = x := fun x hx => hw x (List.mem_cons_of_mem l hx)
      simp only [List.map_cons, List.cons.injEq, equals_ignoring_case, Bool.and_eq_true]
      rw [same_letter_iff c l hl, ih hls cs]

theorem strcaseeq_iff (value word : Str) (hw : ∀ l ∈ word, l.toLower = l) :
    strcaseeq value word = true ↔ equals_ignoring_case value word = true := by
  have hmap : word.map Char.toLower = word := by
    induction word with
    | nil => rfl
    | cons l ls ih =>
      rw [List.map_cons, hw l (List.mem_cons_self l ls),
        ih (fun x hx => hw x (List.mem_cons_of_mem l hx))]
  unfold strcaseeq
  rw [hmap, beq_iff_eq]
  exact map_toLower_eq_iff word hw value

/-- Claim C21 (lenient boolean grammar): `str_to_bool` is false exactly for
a value that equals one of the words `false`, `no`, `off`, `nil`, `nay`
and `-` when the case of letters is ignored, or that begins with the
character `0`, and true for every other value, the empty string among them;
`set_conf` with the key `syslog` sets the syslog flag to that result, so
that `message` writes to syslog after any value that is not one of those. -/
theorem str_to_bool_grammar (value : Str) :
    (str_to_bool value = false
      ↔ ((∃ word ∈ false_words, equals_ignoring_case value word = true)
          ∨ value.head? = some '0'))
    ∧ (str_to_bool value = true
      ↔ ¬ ((∃ word ∈ false_words, equals_ignoring_case value word = true)
          ∨ value.head? = some '0'))
    ∧ str_to_bool [] = true
    ∧ ∀ (env : Env) (w : World) (g : Global),
        (set_conf env w g ['s', 'y', 's', 'l', 'o', 'g'] value).use_syslog = str_to_bool value
        ∧ (str_to_bool value = true →
            sink (set_conf env w g ['s', 'y', 's', 'l', 'o', 'g'] value) = Dest.syslog) := by
  have hfalse : str_to_bool value = false
      ↔ ((∃ word ∈ false_words, equals_ignoring_case value word = true)
          ∨ value.head? = some '0') := by
    unfold str_to_bool false_words
    simp only [Bool.not_eq_false', Bool.or_eq_true, beq_iff_eq, List.mem_cons,
      List.mem_singleton, exists_eq_or_imp, exists_eq_left, List.not_mem_nil, false_and,
      exists_false, or_false]
    rw [strcaseeq_iff value ['f', 'a', 'l', 's', 'e'] (by decide),
      strcaseeq_iff value ['n', 'o'] (by decide),
      strcaseeq_iff value ['o', 'f', 'f'] (by decide),
      strcaseeq_iff value ['n', 'i', 'l'] (by decide),
      strcaseeq_iff value ['n', 'a', 'y'] (by decide),
      strcaseeq_iff value ['-'] (by decide)]
    tauto
  have hset : ∀ (env : Env) (w : World) (g : Global),
      set_conf env w g ['s', 'y', 's', 'l', 'o', 'g'] value
        = { g with use_syslog := str_to_bool value } := by
    intro env w g
    unfold set_conf
    rw [if_neg (by decide), if_pos rfl]
  refine ⟨hfalse, ?_, by decide, ?_⟩
  · rw [← hfalse]
    cases str_to_bool value <;> simp
  · intro env w g
    rw [hset]
    refine ⟨rfl, ?_⟩
    intro ht
    simp only [sink, ht, if_true]


/-- Witness of C21: the value `OfF` is a no; the value `maybe` is a yes and
turns syslog back on in a store that had it off. -/
theorem str_to_bool_grammar_witness :
    str_to_bool ['O', 'f', 'F'] = false
    ∧ str_to_bool ['m', 'a', 'y', 'b', 'e'] = true
    ∧ sink (set_conf sample_env (sample_world []) { Global.initial with use_syslog := false }
        ['s', 'y', 's', 'l', 'o', 'g'] ['m', 'a', 'y', 'b', 'e']) = Dest.syslog :=
  ⟨(str_to_bool_grammar ['O', 'f', 'F']).1.mpr
     (Or.inl ⟨['o', 'f', 'f'], by decide, by decide⟩),
   (str_to_bool_grammar ['m', 'a', 'y', 'b', 'e']).2.1.mpr (by decide),
   ((str_to_bool_grammar ['m', 'a', 'y', 'b', 'e']).2.2.2 sample_env (sample_world [])
      { Global.initial with use_syslog := false }).2 (by decide)⟩

end Traceit
